import Mathlib

/-!
Mob spawner block: configuration codec and spawn cycle.

A shallow embedding of `spawner/spawner.go`.

* Go's `int` is taken at its 64-bit width; conversions between integer widths
  are written out as explicit wrap-around functions (`goInt`, `goInt16`, ...).
* A `float64` value is the rational it stands for, and every `float64` operation
  rounds its exact result to the nearest value with a 53-bit significand, a tie
  going to the even one (`fl64`); operations are rounded one by one.
* A persisted record (`map[string]any`) is a function from keys to optional
  dynamically typed values.
* The package-level registries `entities` and `newEntities`, which the file
  reads but does not declare, are parameters of the functions that read them.
* The world transaction is an oracle for `EntitiesWithin` together with a log of
  the calls made on it; `math/rand` is a list of raw draws; a panic is a flag of
  the outcome.
* A held stack is what its methods `Item` and `Empty` return, and the use
  context is the log of the calls of `SubtractFromCount`; the item type
  `SpawnEgg`, declared outside the file, is a record with the field `Kind`.
-/

namespace spawner

/-! ## Machine integers -/

/-- Largest value of a 64-bit Go `int`. -/
def maxInt : Int := 9223372036854775807

/-- Smallest value of a 64-bit Go `int`. -/
def minInt : Int := -9223372036854775808

/-- Conversion `int(x)` of an integer value: two's complement wrap-around to 64 bits. -/
def goInt (x : Int) : Int :=
  (x + 9223372036854775808) % 18446744073709551616 - 9223372036854775808

/-- Conversion `int32(x)`: wrap-around to 32 bits. -/
def goInt32 (x : Int) : Int := (x + 2147483648) % 4294967296 - 2147483648

/-- Conversion `int16(x)`: wrap-around to 16 bits. -/
def goInt16 (x : Int) : Int := (x + 32768) % 65536 - 32768

/-- Conversion `byte(x)`: the low eight bits. -/
def goByte (x : Int) : Int := x % 256

/-- A floating-point value as far as this package observes one: a finite value
(kept as an exact rational), an infinity or a NaN. -/
inductive GoFloat where
  | finite (q : ℚ)
  | posInf
  | negInf
  | nan
  deriving DecidableEq

/-- Conversion `int(x)` of a floating-point value: the fraction is discarded
(truncation towards zero). Go leaves the result unspecified when the value does not
fit; the value produced by the amd64 conversion instruction is used here. -/
def floatToInt : GoFloat → Int
  | GoFloat.finite q =>
      let t := Int.tdiv q.num q.den
      if minInt ≤ t ∧ t ≤ maxInt then t else minInt
  | _ => minInt

/-! ## `float64` arithmetic -/

/-- Two to the power `k`. -/
def pow2 (k : Int) : ℚ :=
  if 0 ≤ k then ((2 ^ k.toNat : Nat) : ℚ) else 1 / ((2 ^ (-k).toNat : Nat) : ℚ)

/-- The number of halvings that bring `n` below 2, at most `fuel` of them. -/
def halvings : Nat → Nat → Nat
  | 0, _ => 0
  | fuel + 1, n => if n < 2 then 0 else halvings fuel (n / 2) + 1

/-- The position of the leading bit of `n`. -/
def natLog2 (n : Nat) : Nat := halvings n n

/-- The exponent of the leading bit of a rational other than zero: the `k` with
`2^k ≤ |q| < 2^(k+1)`. -/
def ilog2 (q : ℚ) : Int :=
  let k : Int := (natLog2 q.num.natAbs : Int) - (natLog2 q.den : Int)
  if pow2 k ≤ |q| then k else k - 1

/-- Rounding to the nearest integer, a tie going to the even one. -/
def roundHalfEven (m : ℚ) : Int :=
  let f : Int := ⌊m⌋
  if m - f < 1 / 2 then f
  else if 1 / 2 < m - f then f + 1
  else if f % 2 = 0 then f else f + 1

/-- The `float64` nearest to the exact value `q`, a tie going to the even
significand: the result of a `float64` operation whose exact result is `q`. The
significand has 53 bits; the exponent range is not limited (the values the block
computes stay far inside it). -/
def fl64 (q : ℚ) : ℚ :=
  if q = 0 then 0
  else
    let e := ilog2 q - 52
    (roundHalfEven (q / pow2 e) : ℚ) * pow2 e

/-! ## Dynamically typed record values -/

/-- A value of Go type `any` as found in a persisted record. -/
inductive Value where
  | nil
  | int (x : Int)
  | int8 (x : Int)
  | int16 (x : Int)
  | int32 (x : Int)
  | int64 (x : Int)
  | uint8 (x : Int)
  | uint16 (x : Int)
  | uint32 (x : Int)
  | uint64 (x : Int)
  | float32 (x : GoFloat)
  | float64 (x : GoFloat)
  | string (s : String)
  | other (tag : Nat)
  deriving DecidableEq

/-- A persisted record, Go type `map[string]any`: `none` is an absent key. -/
abbrev Record := String → Option Value

/-! ## World types used by the block -/

namespace cube

/-- Block position `cube.Pos`, three Go `int`s. -/
structure Pos where
  X : Int
  Y : Int
  Z : Int
  deriving DecidableEq

/-- Method `Pos.Add`: component-wise sum, in Go `int` arithmetic. -/
def Pos.Add (p q : Pos) : Pos := ⟨goInt (p.X + q.X), goInt (p.Y + q.Y), goInt (p.Z + q.Z)⟩

end cube

namespace world

/-- An entity type (`world.EntityType`, an interface): the identity of the
implementing value and the identifier its `EncodeEntity` method returns. -/
structure EntityType where
  name : String
  EncodeEntity : String
  deriving DecidableEq

end world

/-- The block `Spawner`. A nil `EntityType` is `none`. -/
structure Spawner where
  EntityType : Option world.EntityType
  Delay : Int
  Movable : Bool
  RequiredPlayerRange : Int
  MaxNearbyEntities : Int
  MaxSpawnDelay : Int
  MinSpawnDelay : Int
  SpawnCount : Int
  SpawnRange : Int
  pos : cube.Pos
  deriving DecidableEq

/-- The zero value `Spawner{}`. -/
def Spawner.zero : Spawner :=
  { EntityType := none, Delay := 0, Movable := false, RequiredPlayerRange := 0,
    MaxNearbyEntities := 0, MaxSpawnDelay := 0, MinSpawnDelay := 0, SpawnCount := 0,
    SpawnRange := 0, pos := ⟨0, 0, 0⟩ }

/-! ## Reading a record -/

/-- Function `nbtInt`: the value under `key` narrowed to an `int`; `none` stands
for the result `(0, false)`. -/
def nbtInt (m : Record) (key : String) : Option Int :=
  match m key with
  | none => none
  | some Value.nil => none
  | some (Value.int x) => some x
  | some (Value.int8 x) => some x
  | some (Value.int16 x) => some x
  | some (Value.int32 x) => some x
  | some (Value.int64 x) => some x
  | some (Value.uint8 x) => some x
  | some (Value.uint16 x) => some x
  | some (Value.uint32 x) => some x
  | some (Value.uint64 x) => some (goInt x)
  | some (Value.float32 x) => some (floatToInt x)
  | some (Value.float64 x) => some (floatToInt x)
  | some _ => none

/-- Function `nbtByte`: the value under `key` narrowed to a `byte`; `none` stands
for the result `(0, false)`. -/
def nbtByte (m : Record) (key : String) : Option Int :=
  match m key with
  | none => none
  | some Value.nil => none
  | some (Value.uint8 x) => some x
  | some (Value.int8 x) => some (goByte x)
  | some (Value.int16 x) => some (goByte x)
  | some (Value.int32 x) => some (goByte x)
  | some (Value.int x) => some (goByte x)
  | some _ => none

/-- Method `Spawner.DecodeNBT`, with the registry `entities` (identifier to entity
type) as a parameter. -/
def Spawner.DecodeNBT (entities : String → Option world.EntityType) (s : Spawner)
    (data : Record) : Spawner :=
  -- 1) defaults
  let s : Spawner := { s with Delay := 20 }
  let s : Spawner := { s with Movable := true }
  let s : Spawner := { s with RequiredPlayerRange := 16 }
  let s : Spawner := { s with MaxNearbyEntities := 6 }
  let s : Spawner := { s with MaxSpawnDelay := 800 }
  let s : Spawner := { s with MinSpawnDelay := 200 }
  let s : Spawner := { s with SpawnCount := 4 }
  let s : Spawner := { s with SpawnRange := 4 }
  -- 2) overlay of the record
  let s : Spawner := match nbtInt data "Delay" with
    | some v => if v ≥ 0 then { s with Delay := v } else s
    | none => s
  let s : Spawner := match nbtByte data "isMovable" with
    | some v => { s with Movable := decide (v = 1) }
    | none => s
  let s : Spawner := match nbtInt data "RequiredPlayerRange" with
    | some v => if v > 0 then { s with RequiredPlayerRange := v } else s
    | none => s
  let s : Spawner := match nbtInt data "MaxNearbyEntities" with
    | some v => if v > 0 then { s with MaxNearbyEntities := v } else s
    | none => s
  let s : Spawner := match nbtInt data "MaxSpawnDelay" with
    | some v => if v > 0 then { s with MaxSpawnDelay := v } else s
    | none => s
  let s : Spawner := match nbtInt data "MinSpawnDelay" with
    | some v => if v > 0 then { s with MinSpawnDelay := v } else s
    | none => s
  let s : Spawner := match nbtInt data "SpawnCount" with
    | some v => if v > 0 then { s with SpawnCount := v } else s
    | none => s
  let s : Spawner := match nbtInt data "SpawnRange" with
    | some v => if v > 0 then { s with SpawnRange := v } else s
    | none => s
  -- entity identifier
  let s : Spawner := match data "EntityIdentifier" with
    | some (Value.string id) =>
        if id ≠ "" then
          match entities id with
          | some et => { s with EntityType := some et }
          | none => s
        else s
    | _ => s
  -- 3) sanity
  let s : Spawner := if s.MaxSpawnDelay < s.MinSpawnDelay then
      { s with MaxSpawnDelay := s.MinSpawnDelay } else s
  s

/-- Function `boolToByte`. -/
def boolToByte (b : Bool) : Int := if b then 1 else 0

/-- Method `Spawner.EncodeNBT`: the record written for the block. -/
def Spawner.EncodeNBT (s : Spawner) : Record :=
  let entityID : String :=
    match s.EntityType with
    | some et => et.EncodeEntity
    | none => ""
  fun key =>
    if key = "id" then some (Value.string "MobSpawner")
    else if key = "EntityIdentifier" then some (Value.string entityID)
    else if key = "Delay" then some (Value.int16 (goInt16 s.Delay))
    else if key = "MinSpawnDelay" then some (Value.int16 (goInt16 s.MinSpawnDelay))
    else if key = "MaxSpawnDelay" then some (Value.int16 (goInt16 s.MaxSpawnDelay))
    else if key = "SpawnCount" then some (Value.int16 (goInt16 s.SpawnCount))
    else if key = "SpawnRange" then some (Value.int16 (goInt16 s.SpawnRange))
    else if key = "MaxNearbyEntities" then some (Value.int16 (goInt16 s.MaxNearbyEntities))
    else if key = "RequiredPlayerRange" then
      some (Value.int16 (goInt16 s.RequiredPlayerRange))
    else if key = "DisplayEntityHeight" then some (Value.float32 (GoFloat.finite 1))
    else if key = "DisplayEntityWidth" then some (Value.float32 (GoFloat.finite 1))
    else if key = "isMovable" then some (Value.uint8 (boolToByte s.Movable))
    else if key = "x" then some (Value.int32 (goInt32 s.pos.X))
    else if key = "y" then some (Value.int32 (goInt32 s.pos.Y))
    else if key = "z" then some (Value.int32 (goInt32 s.pos.Z))
    else none

/-! ## The world transaction, the registries and the random source -/

namespace mgl64

/-- Vector `mgl64.Vec3`, three `float64`s. -/
structure Vec3 where
  x : ℚ
  y : ℚ
  z : ℚ
  deriving DecidableEq

/-- Method `Vec3.Add`: the component-wise `float64` sum. -/
def Vec3.Add (a b : Vec3) : Vec3 := ⟨fl64 (a.x + b.x), fl64 (a.y + b.y), fl64 (a.z + b.z)⟩

/-- Method `Vec3.Sub`: the component-wise `float64` difference. -/
def Vec3.Sub (a b : Vec3) : Vec3 := ⟨fl64 (a.x - b.x), fl64 (a.y - b.y), fl64 (a.z - b.z)⟩

end mgl64

namespace cube

/-- Method `Pos.Vec3`: the position as a vector, each coordinate converted to
`float64`. -/
def Pos.Vec3 (p : Pos) : mgl64.Vec3 := ⟨fl64 (p.X : ℚ), fl64 (p.Y : ℚ), fl64 (p.Z : ℚ)⟩

/-- Function `cube.PosFromVec3`: each component rounded down (`math.Floor`) and
converted to `int`. -/
def PosFromVec3 (v : mgl64.Vec3) : Pos :=
  ⟨floatToInt (GoFloat.finite (Int.floor v.x)), floatToInt (GoFloat.finite (Int.floor v.y)),
    floatToInt (GoFloat.finite (Int.floor v.z))⟩

/-- The region `cube.BBox` handed to the entity query: its two corners. -/
structure BBox where
  min : mgl64.Vec3
  max : mgl64.Vec3
  deriving DecidableEq

/-- Function `cube.Box`: the box with the given corners, the coordinates swapped
where needed so that `min` is below `max` on every axis. -/
def Box (x0 y0 z0 x1 y1 z1 : ℚ) : BBox :=
  ⟨⟨if x0 > x1 then x1 else x0, if y0 > y1 then y1 else y0, if z0 > z1 then z1 else z0⟩,
    ⟨if x0 > x1 then x0 else x1, if y0 > y1 then y0 else y1, if z0 > z1 then z0 else z1⟩⟩

end cube

namespace world

/-- An entity handle as the block sees one: its type and where it is. -/
structure Entity where
  type : EntityType
  pos : cube.Pos
  deriving DecidableEq

/-- The part of a transaction `world.Tx` that `Tick` reads: the entities the world
reports for a region, in iteration order. -/
structure Tx where
  EntitiesWithin : cube.BBox → List Entity

end world

namespace player

/-- The entity type `player.Type` of the players. -/
def PlayerType : world.EntityType := ⟨"player.Type", "minecraft:player"⟩

end player

/-- An entry of the registry `newEntities`: builds an entity at a position. -/
abbrev Factory := cube.Pos → world.Entity

/-- A call made on the transaction. -/
inductive Call where
  | EntitiesWithin (box : cube.BBox)
  | SetBlock (pos : cube.Pos) (b : Spawner)
  | AddEntity (e : world.Entity)
  deriving DecidableEq

/-- The random source: the raw draws still to be handed out (an exhausted source
hands out zeros). -/
abbrev Rand := List Nat

namespace rand

/-- Function `rand.Intn`: a value of `[0, n)`, or a panic (`none`) when `n ≤ 0`. Every
value of the range is the outcome for some raw draw. -/
def Intn (n : Int) (r : Rand) : Option (Int × Rand) :=
  if n ≤ 0 then none else some (((r.headD 0 % n.toNat : Nat) : Int), r.tail)

/-- Function `rand.Float64`: `float64(Int63()) / (1 << 63)`, drawn again whenever
that is 1; a value of `[0, 1)`. A raw draw is reduced to the 63 bits of `Int63`, and
the division by a power of two is exact. -/
def Float64 : Rand → ℚ × Rand
  | [] => (0, [])
  | k :: r =>
      let f := fl64 ((k % 9223372036854775808 : Nat) : ℚ) / 9223372036854775808
      if f = 1 then Float64 r else (f, r)

end rand

/-- What a call of `Tick` did: the calls made on the transaction in order, whether
it ended in a panic, and the random source it left. -/
structure Outcome where
  calls : List Call
  panicked : Bool
  rand : Rand

/-! ## The spawn cycle -/

/-- The first query loop of `Tick`: is there an entity of the player type. -/
def playerNearby (es : List world.Entity) : Bool :=
  es.any (fun e => decide (e.type = player.PlayerType))

/-- The second query loop of `Tick`, started with the running `nearbyCount`: `true`
when the loop returns from `Tick` (too many already). -/
def tooMany (et : world.EntityType) (maxNearby : Int) : List world.Entity → Int → Bool
  | [], _ => false
  | e :: es, nearbyCount =>
      if e.type = et then
        let nearbyCount := nearbyCount + 1
        if nearbyCount ≥ maxNearby then true else tooMany et maxNearby es nearbyCount
      else tooMany et maxNearby es nearbyCount

/-- The region `Tick` queries: the block position extended by `RequiredPlayerRange`
along every axis, the corner coordinates converted to `float64`. -/
def Spawner.box (s : Spawner) : cube.BBox :=
  let p1 := s.pos.Add ⟨goInt (-s.RequiredPlayerRange), goInt (-s.RequiredPlayerRange),
    goInt (-s.RequiredPlayerRange)⟩
  let p2 := s.pos.Add ⟨s.RequiredPlayerRange, s.RequiredPlayerRange, s.RequiredPlayerRange⟩
  cube.Box (fl64 (p1.X : ℚ)) (fl64 (p1.Y : ℚ)) (fl64 (p1.Z : ℚ)) (fl64 (p2.X : ℚ))
    (fl64 (p2.Y : ℚ)) (fl64 (p2.Z : ℚ))

/-- The position `Tick` computes for one unit of the batch: the draw that picks the
offset branch, then the two horizontal draws of that branch, each product and each
sum a `float64` operation. -/
def spawnPos (blockPos : mgl64.Vec3) (r : Rand) : mgl64.Vec3 × Rand :=
  let (c, r) := rand.Float64 r
  if c > 1 / 2 then
    let (a, r) := rand.Float64 r
    let (b, r) := rand.Float64 r
    (blockPos.Add ⟨fl64 (a * (3 / 2)), 1, fl64 (b * (3 / 2))⟩, r)
  else
    let (a, r) := rand.Float64 r
    let (b, r) := rand.Float64 r
    (blockPos.Sub ⟨fl64 (-a * -(3 / 2)), -1, fl64 (-b * -(3 / 2))⟩, r)

/-- The spawn loop of `Tick` with `n` iterations left: the `AddEntity` calls made,
the random source left, and whether a missing factory made `Tick` return. -/
def spawnLoop (newEntities : String → Option Factory) (et : world.EntityType)
    (blockPos : mgl64.Vec3) : Nat → Rand → List Call × Rand × Bool
  | 0, r => ([], r, false)
  | n + 1, r =>
      let (sp, r) := spawnPos blockPos r
      match newEntities et.EncodeEntity with
      | none => ([], r, true)
      | some newEnt =>
          let (calls, r, stopped) := spawnLoop newEntities et blockPos n r
          (Call.AddEntity (newEnt (cube.PosFromVec3 sp)) :: calls, r, stopped)

/-- Method `Spawner.Tick`, with the registry `newEntities` (identifier to factory) as
a parameter. -/
def Spawner.Tick (newEntities : String → Option Factory) (s : Spawner) (pos : cube.Pos)
    (tx : world.Tx) (r : Rand) : Outcome :=
  match s.EntityType with
  | none => ⟨[], false, r⟩
  | some et =>
    let s : Spawner := { s with pos := pos }
    let s : Spawner := { s with Delay := goInt (s.Delay - 1) }
    if s.Delay > 0 then
      ⟨[Call.SetBlock pos s], false, r⟩
    else
      let box := s.box
      if !playerNearby (tx.EntitiesWithin box) then
        ⟨[Call.EntitiesWithin box], false, r⟩
      else if tooMany et s.MaxNearbyEntities (tx.EntitiesWithin box) 0 then
        ⟨[Call.EntitiesWithin box, Call.EntitiesWithin box], false, r⟩
      else
        match rand.Intn s.SpawnCount r with
        | none => ⟨[Call.EntitiesWithin box, Call.EntitiesWithin box], true, r⟩
        | some (spawnCount, r) =>
          let (added, r, stopped) := spawnLoop newEntities et pos.Vec3 spawnCount.toNat r
          let calls := [Call.EntitiesWithin box, Call.EntitiesWithin box] ++ added
          if stopped then ⟨calls, false, r⟩
          else
            match rand.Intn (goInt (s.MaxSpawnDelay - s.MinSpawnDelay)) r with
            | none => ⟨calls, true, r⟩
            | some (d, r) =>
              let s : Spawner := { s with Delay := goInt (d + s.MinSpawnDelay) }
              ⟨calls ++ [Call.SetBlock pos s], false, r⟩

/-! ## The tick driver -/

/-- The block the world holds at `pos` once the calls were made: the block of the
last `SetBlock` on `pos`, else the block `b` that was there. -/
def storedAfter (pos : cube.Pos) (b : Spawner) : List Call → Spawner
  | [] => b
  | Call.SetBlock p b2 :: cs => storedAfter pos (if p = pos then b2 else b) cs
  | _ :: cs => storedAfter pos b cs

/-- The entities the calls added to the world. -/
def created : List Call → List world.Entity
  | [] => []
  | Call.AddEntity e :: cs => e :: created cs
  | _ :: cs => created cs

/-- The blocks the calls wrote, with their positions. -/
def written : List Call → List (cube.Pos × Spawner)
  | [] => []
  | Call.SetBlock p b :: cs => (p, b) :: written cs
  | _ :: cs => written cs

/-- What one tick meets: the transaction and the random source. -/
structure Env where
  tx : world.Tx
  rand : Rand

/-- The tick driver: one `Tick` per element of `envs`, each on the block the previous
tick left stored at `pos`. Returns the block stored at the end, every call made, and
whether a tick panicked (which ends the run). -/
def runTicks (newEntities : String → Option Factory) (pos : cube.Pos) :
    List Env → Spawner → Spawner × List Call × Bool
  | [], s => (s, [], false)
  | env :: envs, s =>
      let o := s.Tick newEntities pos env.tx env.rand
      let s2 := storedAfter pos s o.calls
      if o.panicked then (s2, o.calls, true)
      else
        let rest := runTicks newEntities pos envs s2
        (rest.1, o.calls ++ rest.2.1, rest.2.2)

/-! ## Vocabulary of the statements -/

/-- The value an integer tunable takes after the overlay step of `DecodeNBT`: the
narrowed record value when it is present and strictly positive, else the default. -/
def overlaid (data : Record) (key : String) (dflt : Int) : Int :=
  match nbtInt data key with
  | some v => if v > 0 then v else dflt
  | none => dflt

/-- A record holding the two delays of the example `MinSpawnDelay = 500`,
`MaxSpawnDelay = 100`. -/
def exampleDelays : Record := fun key =>
  if key = "MinSpawnDelay" then some (Value.int16 500)
  else if key = "MaxSpawnDelay" then some (Value.int16 100)
  else none

/-- The value of `Delay` after the overlay step: any narrowed value `≥ 0` is kept. -/
def overlaidDelay (data : Record) : Int :=
  match nbtInt data "Delay" with
  | some v => if v ≥ 0 then v else 20
  | none => 20

/-- The value of `Movable` after the overlay step. -/
def overlaidMovable (data : Record) : Bool :=
  match nbtByte data "isMovable" with
  | some v => decide (v = 1)
  | none => true

/-- The entity type after the identifier lookup: the registered type of a non-empty
string identifier, else whatever the receiver held. -/
def resolvedType (entities : String → Option world.EntityType) (s : Spawner)
    (data : Record) : Option world.EntityType :=
  match data "EntityIdentifier" with
  | some (Value.string id) =>
      if id ≠ "" then
        match entities id with
        | some et => some et
        | none => s.EntityType
      else s.EntityType
  | _ => s.EntityType

/-- A tunable of the block other than `Delay`. -/
inductive Tunable where
  | RequiredPlayerRange
  | MaxNearbyEntities
  | MaxSpawnDelay
  | MinSpawnDelay
  | SpawnCount
  | SpawnRange
  deriving DecidableEq

/-- The record key of a tunable. -/
def Tunable.key : Tunable → String
  | Tunable.RequiredPlayerRange => "RequiredPlayerRange"
  | Tunable.MaxNearbyEntities => "MaxNearbyEntities"
  | Tunable.MaxSpawnDelay => "MaxSpawnDelay"
  | Tunable.MinSpawnDelay => "MinSpawnDelay"
  | Tunable.SpawnCount => "SpawnCount"
  | Tunable.SpawnRange => "SpawnRange"

/-- The default `DecodeNBT` starts a tunable from. -/
def Tunable.dflt : Tunable → Int
  | Tunable.RequiredPlayerRange => 16
  | Tunable.MaxNearbyEntities => 6
  | Tunable.MaxSpawnDelay => 800
  | Tunable.MinSpawnDelay => 200
  | Tunable.SpawnCount => 4
  | Tunable.SpawnRange => 4

/-- The field of the block a tunable names. -/
def Tunable.get : Tunable → Spawner → Int
  | Tunable.RequiredPlayerRange, s => s.RequiredPlayerRange
  | Tunable.MaxNearbyEntities, s => s.MaxNearbyEntities
  | Tunable.MaxSpawnDelay, s => s.MaxSpawnDelay
  | Tunable.MinSpawnDelay, s => s.MinSpawnDelay
  | Tunable.SpawnCount, s => s.SpawnCount
  | Tunable.SpawnRange, s => s.SpawnRange

/-- The record gives no usable value under `key`: the key is missing, its value is
not numeric, or it narrows to an integer `≤ 0`. -/
def Unusable (data : Record) (key : String) : Prop :=
  match nbtInt data key with
  | some v => v ≤ 0
  | none => True

instance instDecidableUnusable (data : Record) (key : String) :
    Decidable (Unusable data key) :=
  show Decidable (match nbtInt data key with | some v => v ≤ 0 | none => True) from
    match nbtInt data key with
    | some v => inferInstanceAs (Decidable (v ≤ 0))
    | none => inferInstanceAs (Decidable True)

/-- A record holding only `MinSpawnDelay = 900`. -/
def minOnly : Record := fun key =>
  if key = "MinSpawnDelay" then some (Value.int16 900) else none

/-- A record holding only `SpawnCount = -3`. -/
def negativeCount : Record := fun key =>
  if key = "SpawnCount" then some (Value.int16 (-3)) else none

/-- An entity type, for the worked examples. -/
def zombie : world.EntityType := ⟨"entity.ZombieType", "minecraft:zombie"⟩

/-- A registry `entities` holding the one entity type of the examples. -/
def zombieOnly : String → Option world.EntityType := fun id =>
  if id = "minecraft:zombie" then some zombie else none

/-- A bound block with the default tunables whose countdown has gone negative. -/
def waiting : Spawner :=
  { EntityType := some zombie, Delay := -1, Movable := true, RequiredPlayerRange := 16,
    MaxNearbyEntities := 6, MaxSpawnDelay := 800, MinSpawnDelay := 200, SpawnCount := 4,
    SpawnRange := 4, pos := ⟨0, 64, 0⟩ }

/-- A bound block with the default tunables and `Delay = 20`. -/
def fresh : Spawner :=
  { EntityType := some zombie, Delay := 20, Movable := true, RequiredPlayerRange := 16,
    MaxNearbyEntities := 6, MaxSpawnDelay := 800, MinSpawnDelay := 200, SpawnCount := 4,
    SpawnRange := 4, pos := ⟨0, 64, 0⟩ }

/-- The block survives a save: `Delay` fits a non-negative 16-bit value, every other
integer tunable a strictly positive one, and the delays are in order. -/
def Spawner.FitsRecord (c : Spawner) : Prop :=
  (0 ≤ c.Delay ∧ c.Delay ≤ 32767) ∧
  (0 < c.RequiredPlayerRange ∧ c.RequiredPlayerRange ≤ 32767) ∧
  (0 < c.MaxNearbyEntities ∧ c.MaxNearbyEntities ≤ 32767) ∧
  (0 < c.MaxSpawnDelay ∧ c.MaxSpawnDelay ≤ 32767) ∧
  (0 < c.MinSpawnDelay ∧ c.MinSpawnDelay ≤ 32767) ∧
  (0 < c.SpawnCount ∧ c.SpawnCount ≤ 32767) ∧
  (0 < c.SpawnRange ∧ c.SpawnRange ≤ 32767) ∧
  c.MinSpawnDelay ≤ c.MaxSpawnDelay

instance instDecidableFitsRecord (c : Spawner) : Decidable c.FitsRecord := by
  unfold Spawner.FitsRecord
  infer_instance

/-- The entity type of `c` comes back from the registry: a bound type is registered
under its own non-empty identifier, and for an unbound `c` the receiver `r` of the
decoding is unbound too. -/
def Spawner.TypeResolves (entities : String → Option world.EntityType) (r c : Spawner) :
    Prop :=
  match c.EntityType with
  | some et => et.EncodeEntity ≠ "" ∧ entities et.EncodeEntity = some et
  | none => r.EntityType = none

instance instDecidableTypeResolves (entities : String → Option world.EntityType)
    (r c : Spawner) : Decidable (Spawner.TypeResolves entities r c) :=
  show Decidable (match c.EntityType with
    | some et => et.EncodeEntity ≠ "" ∧ entities et.EncodeEntity = some et
    | none => r.EntityType = none) from
    match c.EntityType with
    | some et => inferInstanceAs (Decidable (et.EncodeEntity ≠ "" ∧ entities et.EncodeEntity = some et))
    | none => inferInstanceAs (Decidable (r.EntityType = none))

/-- The region `Tick` queries for the block `s` ticked at `pos`. -/
def Spawner.region (s : Spawner) (pos : cube.Pos) : cube.BBox :=
  Spawner.box { s with pos := pos }

/-- The transaction reports an entity of the player type in the region. -/
def ObserverIn (tx : world.Tx) (box : cube.BBox) : Prop :=
  ∃ e ∈ tx.EntitiesWithin box, e.type = player.PlayerType

instance instDecidableObserverIn (tx : world.Tx) (box : cube.BBox) :
    Decidable (ObserverIn tx box) := by
  unfold ObserverIn
  infer_instance

/-- A transaction over a world holding the entities `es`: it reports those whose
block position lies in the region, bounds included. -/
def txOf (es : List world.Entity) : world.Tx :=
  ⟨fun box => es.filter (fun e =>
    decide (box.min.x ≤ (e.pos.X : ℚ) ∧ (e.pos.X : ℚ) ≤ box.max.x ∧
      box.min.y ≤ (e.pos.Y : ℚ) ∧ (e.pos.Y : ℚ) ≤ box.max.y ∧
      box.min.z ≤ (e.pos.Z : ℚ) ∧ (e.pos.Z : ℚ) ≤ box.max.z))⟩

/-- The number of entities of type `et` among `es`. -/
def sameKind (et : world.EntityType) (es : List world.Entity) : Nat :=
  es.countP (fun e => decide (e.type = et))

/-- A registry `newEntities` holding a factory for the one entity type of the examples. -/
def zombieFactory : String → Option Factory := fun id =>
  if id = "minecraft:zombie" then some (fun p => ⟨zombie, p⟩) else none

/-- A transaction that reports one player, whatever the region. -/
def playerOnly : world.Tx := ⟨fun _ => [⟨player.PlayerType, ⟨0, 65, 0⟩⟩]⟩

/-- A tick in an empty world. -/
def quiet : Env := ⟨⟨fun _ => []⟩, []⟩

/-- A tick in a world whose only entity is a player a thousand blocks to the east. -/
def farPlayer : Env := ⟨txOf [⟨player.PlayerType, ⟨1000, 64, 0⟩⟩], []⟩

/-- A record of a bound block about to evaluate, whose delays are out of order. -/
def clampedRecord : Record := fun key =>
  if key = "EntityIdentifier" then some (Value.string "minecraft:zombie")
  else if key = "Delay" then some (Value.int16 1)
  else if key = "MinSpawnDelay" then some (Value.int16 500)
  else if key = "MaxSpawnDelay" then some (Value.int16 100)
  else none

/-- A bound block with the default tunables, to be given a `Delay`. -/
def counting (delay : Int) : Spawner := { fresh with Delay := delay }

/-- A bound block about to evaluate whose two delays are equal. -/
def equalDelays : Spawner := { fresh with Delay := 1, MaxSpawnDelay := 200 }

/-- A bound block about to evaluate whose `MaxNearbyEntities` is zero. -/
def noCap : Spawner := { fresh with Delay := 1, MaxNearbyEntities := 0 }

/-- A transaction that reports one player and six entities of the example type. -/
def crowded : world.Tx :=
  ⟨fun _ => ⟨player.PlayerType, ⟨0, 65, 0⟩⟩ :: List.replicate 6 ⟨zombie, ⟨1, 65, 1⟩⟩⟩

/-! ## Activation -/

/-- Modelled from the spec: the item type `SpawnEgg` of this package is declared
outside the file. It exposes the bindable creature kind, which `Activate` reads as
the field `Kind` (an interface value, so possibly nil). -/
structure SpawnEgg where
  Kind : Option world.EntityType
  deriving DecidableEq

namespace item

/-- The dynamic type of a held item as `Activate` tests it: a `SpawnEgg` or anything
else. -/
inductive Item where
  | SpawnEgg (egg : spawner.SpawnEgg)
  | other (name : String)
  deriving DecidableEq

/-- An item stack `item.Stack` as `Activate` observes it: the results of its methods
`Item` (nil is `none`) and `Empty`. -/
structure Stack where
  Item : Option Item
  Empty : Bool
  deriving DecidableEq

/-- An `item.User`: the main-hand and off-hand stacks `HeldItems` returns. -/
structure User where
  HeldItems : Stack × Stack
  deriving DecidableEq

end item

/-- What a call of `Activate` did: the value returned, the calls made on the
transaction, and the arguments of the calls of `SubtractFromCount` on the use
context. -/
structure Activation where
  ok : Bool
  calls : List Call
  subtracted : List Int
  deriving DecidableEq

/-- Method `Spawner.Activate`. The clicked face is not read and is left out. A failed
type assertion leaves the zero value `SpawnEgg{}` in `egg`. -/
def Spawner.Activate (s : Spawner) (pos : cube.Pos) (u : item.User) : Activation :=
  if s.EntityType ≠ none then
    ⟨false, [], []⟩
  else
    let held := u.HeldItems.1
    let (egg, ok) : SpawnEgg × Bool :=
      match held.Item with
      | some (item.Item.SpawnEgg e) => (e, true)
      | _ => (⟨none⟩, false)
    if held.Empty || !ok then
      ⟨false, [], []⟩
    else
      let s : Spawner := { s with EntityType := egg.Kind }
      ⟨true, [Call.SetBlock pos s], [1]⟩

/-- The holder's main hand holds a non-empty stack of the spawn egg `egg`. -/
def item.User.Holds (u : item.User) (egg : SpawnEgg) : Prop :=
  u.HeldItems.1.Empty = false ∧ u.HeldItems.1.Item = some (item.Item.SpawnEgg egg)

instance instDecidableHolds (u : item.User) (egg : SpawnEgg) : Decidable (u.Holds egg) := by
  unfold item.User.Holds
  infer_instance

/-- A holder of a non-empty stack of eggs of the example type. -/
def eggHolder : item.User :=
  ⟨⟨some (item.Item.SpawnEgg ⟨some zombie⟩), false⟩, ⟨none, true⟩⟩

/-- A holder of a non-empty stack of something that is not a spawn egg. -/
def stickHolder : item.User := ⟨⟨some (item.Item.other "stick"), false⟩, ⟨none, true⟩⟩

/-- A step of the life of a block: a tick or an activation attempt. -/
inductive Op where
  | tick (env : Env)
  | activate (u : item.User)

/-- The calls one step makes on the transaction when run on the block `s`, and
whether it panicked. -/
def Op.run (newEntities : String → Option Factory) (pos : cube.Pos) (s : Spawner) :
    Op → List Call × Bool
  | Op.tick env => ((s.Tick newEntities pos env.tx env.rand).calls,
      (s.Tick newEntities pos env.tx env.rand).panicked)
  | Op.activate u => ((s.Activate pos u).calls, false)

/-- The driver of ticks and activation attempts: each step runs on the block the
previous step left stored at `pos`. Returns the block stored at the end, every call
made, and whether a tick panicked (which ends the run). -/
def runOps (newEntities : String → Option Factory) (pos : cube.Pos) :
    List Op → Spawner → Spawner × List Call × Bool
  | [], s => (s, [], false)
  | op :: ops, s =>
      let o := op.run newEntities pos s
      let s2 := storedAfter pos s o.1
      if o.2 then (s2, o.1, true)
      else
        let rest := runOps newEntities pos ops s2
        (rest.1, o.1 ++ rest.2.1, rest.2.2)

/-- A tick with a player and no entity of the example type in the region, with the
raw draws 2, 0, 0, .. -/
def lively : Env := ⟨playerOnly, [2]⟩

/-- A record holding only `Delay = 0`. -/
def zeroDelay : Record := fun key =>
  if key = "Delay" then some (Value.int16 0) else none

/-- An entity type whose `EncodeEntity` returns the empty string. -/
def nameless : world.EntityType := ⟨"entity.NamelessType", ""⟩

/-- A block bound to the entity type with the empty identifier. -/
def boundNameless : Spawner := { fresh with EntityType := some nameless }

/-- A registry `newEntities` with no factory at all. -/
def noFactory : String → Option Factory := fun _ => none

/-- The batch size `Tick` draws for the block `s` from the random source `r`, when
`SpawnCount` is positive. -/
def batchSize (s : Spawner) (r : Rand) : Nat := r.headD 0 % s.SpawnCount.toNat

/-- The record gives no entity type: `EntityIdentifier` is missing, not a string,
empty, or not a key of the registry. -/
def Unresolved (entities : String → Option world.EntityType) (data : Record) : Prop :=
  match data "EntityIdentifier" with
  | some (Value.string id) => id = "" ∨ entities id = none
  | _ => True

instance instDecidableUnresolved (entities : String → Option world.EntityType)
    (data : Record) : Decidable (Unresolved entities data) := by
  unfold Unresolved
  split <;> infer_instance

/-- The plain count comparison the counting loop stands for: the number of entities
of type `et` among `es` reaches the cap. -/
def countReachesCap (et : world.EntityType) (maxNearby : Int) (es : List world.Entity) :
    Bool :=
  decide (maxNearby ≤ (sameKind et es : Int))

/-- A record holding only `Delay = float64(-0.5)`. -/
def halfBelowZero : Record := fun key =>
  if key = "Delay" then some (Value.float64 (GoFloat.finite (-1 / 2))) else none

/-- A record holding only `Delay = uint64(9223372036854775808)`. -/
def hugeDelay : Record := fun key =>
  if key = "Delay" then some (Value.uint64 9223372036854775808) else none

/-- The coordinates of the position are at most `2^51` in size, so that they and the
half-integers around them are `float64`s. -/
def cube.Pos.Small (p : cube.Pos) : Prop :=
  (-2251799813685248 ≤ p.X ∧ p.X ≤ 2251799813685248) ∧
    (-2251799813685248 ≤ p.Y ∧ p.Y ≤ 2251799813685248) ∧
    (-2251799813685248 ≤ p.Z ∧ p.Z ≤ 2251799813685248)

instance instDecidableSmall (p : cube.Pos) : Decidable p.Small := by
  unfold cube.Pos.Small
  infer_instance

theorem DecodeNBT_eq (entities : String → Option world.EntityType) (s : Spawner)
    (data : Record) :
    Spawner.DecodeNBT entities s data =
      { EntityType := resolvedType entities s data
        Delay := overlaidDelay data
        Movable := overlaidMovable data
        RequiredPlayerRange := overlaid data "RequiredPlayerRange" 16
        MaxNearbyEntities := overlaid data "MaxNearbyEntities" 6
        MaxSpawnDelay := max (overlaid data "MaxSpawnDelay" 800) (overlaid data "MinSpawnDelay" 200)
        MinSpawnDelay := overlaid data "MinSpawnDelay" 200
        SpawnCount := overlaid data "SpawnCount" 4
        SpawnRange := overlaid data "SpawnRange" 4
        pos := s.pos } := by
  unfold Spawner.DecodeNBT
  lift_lets
  intro s1 s2 s3 s4 s5 s6 s7 s8 s9 s10 s11 s12 s13 s14 s15 s16 s17 s18
  have h8 : s8 = { s with
      Delay := 20, Movable := true, RequiredPlayerRange := 16, MaxNearbyEntities := 6,
      MaxSpawnDelay := 800, MinSpawnDelay := 200, SpawnCount := 4, SpawnRange := 4 } := rfl
  clear_value s8
  subst h8
  have h9 : s9 = { s with
      Delay := overlaidDelay data
      Movable := true
      RequiredPlayerRange := 16
      MaxNearbyEntities := 6
      MaxSpawnDelay := 800
      MinSpawnDelay := 200
      SpawnCount := 4
      SpawnRange := 4 } := by
    simp only [s9, overlaidDelay]
    cases nbtInt data "Delay" with
    | none => rfl
    | some v => simp only []; split <;> rfl
  clear_value s9
  subst h9
  have h10 : s10 = { s with
      Delay := overlaidDelay data
      Movable := overlaidMovable data
      RequiredPlayerRange := 16
      MaxNearbyEntities := 6
      MaxSpawnDelay := 800
      MinSpawnDelay := 200
      SpawnCount := 4
      SpawnRange := 4 } := by
    simp only [s10, overlaidMovable]
    cases nbtByte data "isMovable" <;> rfl
  clear_value s10
  subst h10
  have h11 : s11 = { s with
      Delay := overlaidDelay data
      Movable := overlaidMovable data
      RequiredPlayerRange := overlaid data "RequiredPlayerRange" 16
      MaxNearbyEntities := 6
      MaxSpawnDelay := 800
      MinSpawnDelay := 200
      SpawnCount := 4
      SpawnRange := 4 } := by
    simp only [s11, overlaid]
    cases nbtInt data "RequiredPlayerRange" with
    | none => rfl
    | some v => simp only []; split <;> rfl
  clear_value s11
  subst h11
  have h12 : s12 = { s with
      Delay := overlaidDelay data
      Movable := overlaidMovable data
      RequiredPlayerRange := overlaid data "RequiredPlayerRange" 16
      MaxNearbyEntities := overlaid data "MaxNearbyEntities" 6
      MaxSpawnDelay := 800
      MinSpawnDelay := 200
      SpawnCount := 4
      SpawnRange := 4 } := by
    simp only [s12, overlaid]
    cases nbtInt data "MaxNearbyEntities" with
    | none => rfl
    | some v => simp only []; split <;> rfl
  clear_value s12
  subst h12
  have h13 : s13 = { s with
      Delay := overlaidDelay data
      Movable := overlaidMovable data
      RequiredPlayerRange := overlaid data "RequiredPlayerRange" 16
      MaxNearbyEntities := overlaid data "MaxNearbyEntities" 6
      MaxSpawnDelay := overlaid data "MaxSpawnDelay" 800
      MinSpawnDelay := 200
      SpawnCount := 4
      SpawnRange := 4 } := by
    simp only [s13, overlaid]
    cases nbtInt data "MaxSpawnDelay" with
    | none => rfl
    | some v => simp only []; split <;> rfl
  clear_value s13
  subst h13
  have h14 : s14 = { s with
      Delay := overlaidDelay data
      Movable := overlaidMovable data
      RequiredPlayerRange := overlaid data "RequiredPlayerRange" 16
      MaxNearbyEntities := overlaid data "MaxNearbyEntities" 6
      MaxSpawnDelay := overlaid data "MaxSpawnDelay" 800
      MinSpawnDelay := overlaid data "MinSpawnDelay" 200
      SpawnCount := 4
      SpawnRange := 4 } := by
    simp only [s14, overlaid]
    cases nbtInt data "MinSpawnDelay" with
    | none => rfl
    | some v => simp only []; split <;> rfl
  clear_value s14
  subst h14
  have h15 : s15 = { s with
      Delay := overlaidDelay data
      Movable := overlaidMovable data
      RequiredPlayerRange := overlaid data "RequiredPlayerRange" 16
      MaxNearbyEntities := overlaid data "MaxNearbyEntities" 6
      MaxSpawnDelay := overlaid data "MaxSpawnDelay" 800
      MinSpawnDelay := overlaid data "MinSpawnDelay" 200
      SpawnCount := overlaid data "SpawnCount" 4
      SpawnRange := 4 } := by
    simp only [s15, overlaid]
    cases nbtInt data "SpawnCount" with
    | none => rfl
    | some v => simp only []; split <;> rfl
  clear_value s15
  subst h15
  have h16 : s16 = { s with
      Delay := overlaidDelay data
      Movable := overlaidMovable data
      RequiredPlayerRange := overlaid data "RequiredPlayerRange" 16
      MaxNearbyEntities := overlaid data "MaxNearbyEntities" 6
      MaxSpawnDelay := overlaid data "MaxSpawnDelay" 800
      MinSpawnDelay := overlaid data "MinSpawnDelay" 200
      SpawnCount := overlaid data "SpawnCount" 4
      SpawnRange := overlaid data "SpawnRange" 4 } := by
    simp only [s16, overlaid]
    cases nbtInt data "SpawnRange" with
    | none => rfl
    | some v => simp only []; split <;> rfl
  clear_value s16
  subst h16
  have h17 : s17 = { s with
      EntityType := resolvedType entities s data
      Delay := overlaidDelay data
      Movable := overlaidMovable data
      RequiredPlayerRange := overlaid data "RequiredPlayerRange" 16
      MaxNearbyEntities := overlaid data "MaxNearbyEntities" 6
      MaxSpawnDelay := overlaid data "MaxSpawnDelay" 800
      MinSpawnDelay := overlaid data "MinSpawnDelay" 200
      SpawnCount := overlaid data "SpawnCount" 4
      SpawnRange := overlaid data "SpawnRange" 4 } := by
    simp only [s17, resolvedType]
    split
    · split
      · split <;> rfl
      · rfl
    · rfl
  clear_value s17
  subst h17
  simp only [s18]
  split
  · rename_i h
    simp only [max_eq_right (le_of_lt h)]
  · rename_i h
    simp only [max_eq_left (not_lt.mp h)]


theorem overlaid_pos (data : Record) (key : String) (dflt : Int) (h : 0 < dflt) :
    0 < overlaid data key dflt := by
  unfold overlaid
  split
  · split <;> assumption
  · exact h

theorem overlaid_unusable (data : Record) (key : String) (dflt : Int)
    (h : Unusable data key) : overlaid data key dflt = dflt := by
  unfold Unusable at h
  unfold overlaid
  split
  · rename_i v hv
    rw [hv] at h
    simp only [] at h
    rw [if_neg (not_lt.mpr h)]
  · rfl

/-! ## Configuration resolver -/

/-- C1: for every record and every receiver the configuration returned by
`DecodeNBT` has `MaxSpawnDelay ≥ MinSpawnDelay`: `MinSpawnDelay` is its overlaid
value and `MaxSpawnDelay` the larger of the two overlaid delays, so an overlaid
maximum below the minimum is raised to the minimum. For the record
`MinSpawnDelay = 500`, `MaxSpawnDelay = 100` both delays resolve to 500. -/
theorem C1_decode_delays_ordered (entities : String → Option world.EntityType)
    (s : Spawner) (data : Record) :
    (Spawner.DecodeNBT entities s data).MinSpawnDelay ≤
        (Spawner.DecodeNBT entities s data).MaxSpawnDelay ∧
      (Spawner.DecodeNBT entities s data).MinSpawnDelay = overlaid data "MinSpawnDelay" 200 ∧
      (Spawner.DecodeNBT entities s data).MaxSpawnDelay =
        max (overlaid data "MaxSpawnDelay" 800) (overlaid data "MinSpawnDelay" 200) ∧
      (Spawner.DecodeNBT entities s exampleDelays).MaxSpawnDelay = 500 ∧
      (Spawner.DecodeNBT entities s exampleDelays).MinSpawnDelay = 500 := by
  refine ⟨?_, ?_, ?_, ?_, ?_⟩
  · rw [DecodeNBT_eq]
    exact le_max_right _ _
  · rw [DecodeNBT_eq]
  · rw [DecodeNBT_eq]
  · rw [DecodeNBT_eq]
    show max (overlaid exampleDelays "MaxSpawnDelay" 800)
      (overlaid exampleDelays "MinSpawnDelay" 200) = 500
    decide
  · rw [DecodeNBT_eq]
    show overlaid exampleDelays "MinSpawnDelay" 200 = 500
    decide

/-- C2: for every record and every receiver `DecodeNBT` returns a configuration
(the function is total) in which `RequiredPlayerRange`, `MaxNearbyEntities`,
`MaxSpawnDelay`, `MinSpawnDelay`, `SpawnCount` and `SpawnRange` are all strictly
positive. -/
theorem C2_decode_tunables_positive (entities : String → Option world.EntityType)
    (s : Spawner) (data : Record) :
    0 < (Spawner.DecodeNBT entities s data).RequiredPlayerRange ∧
      0 < (Spawner.DecodeNBT entities s data).MaxNearbyEntities ∧
      0 < (Spawner.DecodeNBT entities s data).MaxSpawnDelay ∧
      0 < (Spawner.DecodeNBT entities s data).MinSpawnDelay ∧
      0 < (Spawner.DecodeNBT entities s data).SpawnCount ∧
      0 < (Spawner.DecodeNBT entities s data).SpawnRange := by
  rw [DecodeNBT_eq]
  refine ⟨?_, ?_, ?_, ?_, ?_, ?_⟩
  · exact overlaid_pos _ _ _ (by decide)
  · exact overlaid_pos _ _ _ (by decide)
  · exact lt_of_lt_of_le (overlaid_pos data "MaxSpawnDelay" 800 (by decide)) (le_max_left _ _)
  · exact overlaid_pos _ _ _ (by decide)
  · exact overlaid_pos _ _ _ (by decide)
  · exact overlaid_pos _ _ _ (by decide)

/-- C3, as stated, fails for `MaxSpawnDelay`: the record holding only
`MinSpawnDelay = 900` has no `MaxSpawnDelay`, yet the decoded `MaxSpawnDelay` is 900,
not the default 800. -/
theorem C3_max_delay_not_default :
    Unusable minOnly Tunable.MaxSpawnDelay.key ∧
      (Spawner.DecodeNBT zombieOnly Spawner.zero minOnly).MaxSpawnDelay = 900 ∧
      (Spawner.DecodeNBT zombieOnly Spawner.zero minOnly).MaxSpawnDelay ≠
        Tunable.MaxSpawnDelay.dflt := by
  decide

/-- C3, amended: for every record, every receiver and every tunable other than
`Delay` whose record value is missing, non-numeric or narrows to an integer `≤ 0`,
the decoded field equals its default (16, 6, 200, 4, 4), whatever the other fields
are, except that the decoded `MaxSpawnDelay` is the larger of its default 800 and the
decoded `MinSpawnDelay`. -/
theorem C3_unusable_value_gives_default (entities : String → Option world.EntityType)
    (s : Spawner) (data : Record) (f : Tunable) (h : Unusable data f.key) :
    f.get (Spawner.DecodeNBT entities s data) =
      if f = Tunable.MaxSpawnDelay then
        max 800 (Spawner.DecodeNBT entities s data).MinSpawnDelay
      else f.dflt := by
  rw [DecodeNBT_eq]
  cases f <;>
    simp only [Tunable.get, Tunable.dflt, Tunable.key, reduceCtorEq, if_false, if_true] at h ⊢ <;>
    rw [overlaid_unusable _ _ _ h]

/-- C3, amended, at the record `SpawnCount = -3`: the decoded `SpawnCount` is 4. -/
theorem C3_unusable_value_gives_default_witness :
    Unusable negativeCount Tunable.SpawnCount.key ∧
      Tunable.SpawnCount.get (Spawner.DecodeNBT zombieOnly Spawner.zero negativeCount) = 4 :=
  ⟨by decide, C3_unusable_value_gives_default zombieOnly Spawner.zero negativeCount
    Tunable.SpawnCount (by decide)⟩

/-! ## Persistence codec -/

theorem goInt16_of_fits (x : Int) (h : -32768 ≤ x ∧ x ≤ 32767) : goInt16 x = x := by
  unfold goInt16
  omega

theorem overlaid_encode (c : Spawner) (key : String) (dflt x : Int)
    (hk : nbtInt c.EncodeNBT key = some (goInt16 x)) (hx : 0 < x ∧ x ≤ 32767) :
    overlaid c.EncodeNBT key dflt = x := by
  unfold overlaid
  rw [hk, goInt16_of_fits x (by omega)]
  simp only [gt_iff_lt, hx.1, if_true]

theorem overlaidDelay_encode (c : Spawner) (h : 0 ≤ c.Delay ∧ c.Delay ≤ 32767) :
    overlaidDelay c.EncodeNBT = c.Delay := by
  have hk : nbtInt c.EncodeNBT "Delay" = some (goInt16 c.Delay) := rfl
  unfold overlaidDelay
  rw [hk, goInt16_of_fits c.Delay (by omega)]
  simp only [ge_iff_le, h.1, if_true]

theorem overlaidMovable_encode (c : Spawner) : overlaidMovable c.EncodeNBT = c.Movable := by
  have hk : nbtByte c.EncodeNBT "isMovable" = some (boolToByte c.Movable) := rfl
  unfold overlaidMovable
  rw [hk]
  cases c.Movable <;> rfl

theorem resolvedType_encode (entities : String → Option world.EntityType) (r c : Spawner)
    (h : Spawner.TypeResolves entities r c) :
    resolvedType entities r c.EncodeNBT = c.EntityType := by
  unfold Spawner.TypeResolves at h
  cases hc : c.EntityType with
  | none =>
      rw [hc] at h
      have hk : c.EncodeNBT "EntityIdentifier" = some (Value.string "") := by
        simp only [Spawner.EncodeNBT, hc]
        rfl
      unfold resolvedType
      rw [hk]
      simpa using h
  | some et =>
      rw [hc] at h
      have hk : c.EncodeNBT "EntityIdentifier" = some (Value.string et.EncodeEntity) := by
        simp only [Spawner.EncodeNBT, hc]
        rfl
      unfold resolvedType
      rw [hk]
      simp only [ne_eq, h.1, not_false_eq_true, if_true, h.2]

/-- C4, as stated, fails: a bound block whose countdown stands at -1 (default
tunables, registered type) is written with `Delay = -1`, and decoding that record
yields `Delay = 20`. -/
theorem C4_negative_delay_not_restored :
    waiting.Delay = -1 ∧
      (Spawner.DecodeNBT zombieOnly Spawner.zero waiting.EncodeNBT).Delay = 20 := by
  decide

/-- C4, amended: for every configuration `c` whose `Delay` lies in 0..32767, whose six
other integer tunables lie in 1..32767 with `MinSpawnDelay ≤ MaxSpawnDelay`, and whose
entity type is either registered under its own non-empty identifier or unset together
with the receiver's, `DecodeNBT` applied to `EncodeNBT c` returns a configuration
with the `EntityType`, `Delay`, `Movable`, `RequiredPlayerRange`,
`MaxNearbyEntities`, `MaxSpawnDelay`, `MinSpawnDelay`, `SpawnCount` and `SpawnRange`
of `c`. -/
theorem C4_round_trip (entities : String → Option world.EntityType) (r c : Spawner)
    (hfit : c.FitsRecord) (htype : Spawner.TypeResolves entities r c) :
    (Spawner.DecodeNBT entities r c.EncodeNBT).EntityType = c.EntityType ∧
      (Spawner.DecodeNBT entities r c.EncodeNBT).Delay = c.Delay ∧
      (Spawner.DecodeNBT entities r c.EncodeNBT).Movable = c.Movable ∧
      (Spawner.DecodeNBT entities r c.EncodeNBT).RequiredPlayerRange = c.RequiredPlayerRange ∧
      (Spawner.DecodeNBT entities r c.EncodeNBT).MaxNearbyEntities = c.MaxNearbyEntities ∧
      (Spawner.DecodeNBT entities r c.EncodeNBT).MaxSpawnDelay = c.MaxSpawnDelay ∧
      (Spawner.DecodeNBT entities r c.EncodeNBT).MinSpawnDelay = c.MinSpawnDelay ∧
      (Spawner.DecodeNBT entities r c.EncodeNBT).SpawnCount = c.SpawnCount ∧
      (Spawner.DecodeNBT entities r c.EncodeNBT).SpawnRange = c.SpawnRange := by
  obtain ⟨hd, hr, hn, hmax, hmin, hc, hs, hle⟩ := hfit
  rw [DecodeNBT_eq]
  refine ⟨resolvedType_encode entities r c htype, overlaidDelay_encode c hd,
    overlaidMovable_encode c,
    overlaid_encode c "RequiredPlayerRange" 16 c.RequiredPlayerRange rfl hr,
    overlaid_encode c "MaxNearbyEntities" 6 c.MaxNearbyEntities rfl hn, ?_,
    overlaid_encode c "MinSpawnDelay" 200 c.MinSpawnDelay rfl hmin,
    overlaid_encode c "SpawnCount" 4 c.SpawnCount rfl hc,
    overlaid_encode c "SpawnRange" 4 c.SpawnRange rfl hs⟩
  show max (overlaid c.EncodeNBT "MaxSpawnDelay" 800) (overlaid c.EncodeNBT "MinSpawnDelay" 200) =
    c.MaxSpawnDelay
  rw [overlaid_encode c "MaxSpawnDelay" 800 c.MaxSpawnDelay rfl hmax,
    overlaid_encode c "MinSpawnDelay" 200 c.MinSpawnDelay rfl hmin]
  exact max_eq_left hle

/-- C4, amended, at the bound block with default tunables and `Delay = 20`. -/
theorem C4_round_trip_witness :
    fresh.FitsRecord ∧ Spawner.TypeResolves zombieOnly Spawner.zero fresh ∧
      (Spawner.DecodeNBT zombieOnly Spawner.zero fresh.EncodeNBT).EntityType = some zombie ∧
      (Spawner.DecodeNBT zombieOnly Spawner.zero fresh.EncodeNBT).Delay = 20 :=
  ⟨by decide, by decide,
    (C4_round_trip zombieOnly Spawner.zero fresh (by decide) (by decide)).1,
    (C4_round_trip zombieOnly Spawner.zero fresh (by decide) (by decide)).2.1⟩

/-! ## Spawn cycle -/

theorem goInt_of_fits (x : Int) (h : minInt ≤ x ∧ x ≤ maxInt) : goInt x = x := by
  unfold minInt maxInt at h
  unfold goInt
  omega

theorem playerNearby_eq_false (tx : world.Tx) (box : cube.BBox) (h : ¬ ObserverIn tx box) :
    playerNearby (tx.EntitiesWithin box) = false := by
  unfold playerNearby
  rw [List.any_eq_false]
  intro e he
  simp only [decide_eq_true_eq]
  exact fun ht => h ⟨e, he, ht⟩

theorem playerNearby_eq_true (tx : world.Tx) (box : cube.BBox) (h : ObserverIn tx box) :
    playerNearby (tx.EntitiesWithin box) = true := by
  unfold playerNearby
  rw [List.any_eq_true]
  obtain ⟨e, he, ht⟩ := h
  exact ⟨e, he, by simpa using ht⟩

/-- An unbound block: `Tick` returns at once. -/
theorem Tick_unbound (newEntities : String → Option Factory) (s : Spawner) (pos : cube.Pos)
    (tx : world.Tx) (r : Rand) (h : s.EntityType = none) :
    s.Tick newEntities pos tx r = ⟨[], false, r⟩ := by
  simp only [Spawner.Tick, h]

/-- A bound block still counting: `Tick` writes the block with the countdown lowered. -/
theorem Tick_counting (newEntities : String → Option Factory) (s : Spawner) (pos : cube.Pos)
    (tx : world.Tx) (r : Rand) (et : world.EntityType) (h : s.EntityType = some et)
    (hd : 0 < goInt (s.Delay - 1)) :
    s.Tick newEntities pos tx r =
      ⟨[Call.SetBlock pos { s with pos := pos, Delay := goInt (s.Delay - 1) }], false, r⟩ := by
  simp only [Spawner.Tick, h, gt_iff_lt, hd, if_true]

/-- A bound block due for evaluation with no observer: `Tick` queries once and returns. -/
theorem Tick_no_observer (newEntities : String → Option Factory) (s : Spawner)
    (pos : cube.Pos) (tx : world.Tx) (r : Rand) (et : world.EntityType)
    (h : s.EntityType = some et) (hd : goInt (s.Delay - 1) ≤ 0)
    (hno : ¬ ObserverIn tx (s.region pos)) :
    s.Tick newEntities pos tx r = ⟨[Call.EntitiesWithin (s.region pos)], false, r⟩ := by
  have hp := playerNearby_eq_false tx (s.region pos) hno
  have hb : ∀ d, Spawner.box { s with EntityType := some et, pos := pos, Delay := d } =
      s.region pos := fun _ => rfl
  simp only [Spawner.Tick, h, gt_iff_lt, not_lt.mpr hd, if_false, hb, hp, Bool.not_false,
    if_true]

theorem runTicks_cons_ok (newEntities : String → Option Factory) (pos : cube.Pos)
    (env : Env) (envs : List Env) (s : Spawner) (calls : List Call) (r : Rand)
    (h : s.Tick newEntities pos env.tx env.rand = ⟨calls, false, r⟩) :
    runTicks newEntities pos (env :: envs) s =
      ((runTicks newEntities pos envs (storedAfter pos s calls)).1,
        calls ++ (runTicks newEntities pos envs (storedAfter pos s calls)).2.1,
        (runTicks newEntities pos envs (storedAfter pos s calls)).2.2) := by
  simp only [runTicks, h, Bool.false_eq_true, if_false]

theorem created_append (xs ys : List Call) : created (xs ++ ys) = created xs ++ created ys := by
  induction xs with
  | nil => rfl
  | cons c cs ih => cases c <;> simp [created, ih]

/-- Ticks without an observer in the region: the stored countdown goes down to 1 and
stays there, a stored countdown of 1 or less never changes, the block stays bound,
nothing is created and no tick panics. -/
theorem runTicks_no_observer (newEntities : String → Option Factory) (pos : cube.Pos)
    (et : world.EntityType) (envs : List Env) (s : Spawner) (h : s.EntityType = some et)
    (hd : minInt < s.Delay ∧ s.Delay ≤ maxInt)
    (hno : ∀ env ∈ envs, ¬ ObserverIn env.tx (s.region pos)) :
    (runTicks newEntities pos envs s).1.Delay = max (s.Delay - envs.length) (min s.Delay 1) ∧
      (runTicks newEntities pos envs s).1.EntityType = some et ∧
      created (runTicks newEntities pos envs s).2.1 = [] ∧
      (runTicks newEntities pos envs s).2.2 = false := by
  induction envs generalizing s with
  | nil =>
      refine ⟨?_, h, rfl, rfl⟩
      show s.Delay = max (s.Delay - ((0 : Nat) : Int)) (min s.Delay 1)
      omega
  | cons env envs ih =>
      have hno1 : ¬ ObserverIn env.tx (s.region pos) := hno env (List.mem_cons_self _ _)
      have hno2 : ∀ e ∈ envs, ¬ ObserverIn e.tx (s.region pos) :=
        fun e he => hno e (List.mem_cons_of_mem _ he)
      have hg : goInt (s.Delay - 1) = s.Delay - 1 :=
        goInt_of_fits _ (by unfold minInt maxInt at *; omega)
      by_cases hc : 0 < s.Delay - 1
      · rw [runTicks_cons_ok newEntities pos env envs s _ _
          (Tick_counting newEntities s pos env.tx env.rand et h (by rw [hg]; exact hc))]
        have hs : storedAfter pos s
            [Call.SetBlock pos { s with pos := pos, Delay := goInt (s.Delay - 1) }] =
            { s with pos := pos, Delay := goInt (s.Delay - 1) } := by
          simp only [storedAfter, if_true]
        rw [hs]
        obtain ⟨h1, h2, h3, h4⟩ := ih { s with pos := pos, Delay := goInt (s.Delay - 1) } h
          (by simp only [hg]; unfold minInt maxInt at *; omega) hno2
        refine ⟨?_, h2, ?_, h4⟩
        · rw [h1]
          simp only [hg, List.length_cons, Nat.cast_add, Nat.cast_one]
          omega
        · simp [created_append, h3, created]
      · rw [runTicks_cons_ok newEntities pos env envs s _ _
          (Tick_no_observer newEntities s pos env.tx env.rand et h (by rw [hg]; omega) hno1)]
        have hs : storedAfter pos s [Call.EntitiesWithin (s.region pos)] = s := rfl
        rw [hs]
        obtain ⟨h1, h2, h3, h4⟩ := ih s h hd hno2
        refine ⟨?_, h2, ?_, h4⟩
        · rw [h1]
          simp only [List.length_cons, Nat.cast_add, Nat.cast_one]
          omega
        · simp [created_append, h3, created]

theorem sameKind_cons (et : world.EntityType) (e : world.Entity) (es : List world.Entity) :
    sameKind et (e :: es) = sameKind et es + if e.type = et then 1 else 0 := by
  unfold sameKind
  rw [List.countP_cons]
  simp only [decide_eq_true_eq]

/-- The counting loop does not stop while the running count stays below the cap. -/
theorem tooMany_eq_false (et : world.EntityType) (maxNearby : Int) (es : List world.Entity)
    (k : Int) (h : k + sameKind et es < maxNearby) : tooMany et maxNearby es k = false := by
  induction es generalizing k with
  | nil => rfl
  | cons e es ih =>
      rw [sameKind_cons] at h
      unfold tooMany
      by_cases he : e.type = et
      · simp only [he, if_true, Nat.cast_add, Nat.cast_one] at h ⊢
        rw [if_neg (by omega)]
        exact ih (k + 1) (by omega)
      · simp only [he, if_false, Nat.add_zero] at h ⊢
        exact ih k h

/-- The counting loop stops once the running count reaches a cap it started below. -/
theorem tooMany_eq_true (et : world.EntityType) (maxNearby : Int) (es : List world.Entity)
    (k : Int) (hk : k < maxNearby) (h : maxNearby ≤ k + sameKind et es) :
    tooMany et maxNearby es k = true := by
  induction es generalizing k with
  | nil =>
      simp only [sameKind, List.countP_nil, Nat.cast_zero, add_zero] at h
      omega
  | cons e es ih =>
      rw [sameKind_cons] at h
      unfold tooMany
      by_cases he : e.type = et
      · simp only [he, if_true, Nat.cast_add, Nat.cast_one] at h ⊢
        by_cases hm : k + 1 ≥ maxNearby
        · rw [if_pos hm]
        · rw [if_neg hm]
          exact ih (k + 1) (by omega) (by omega)
      · simp only [he, if_false, Nat.add_zero] at h ⊢
        exact ih k hk h

/-- The spawn loop with a registered factory runs all its iterations: it does not
stop, adds one entity per iteration, and writes no block. -/
theorem spawnLoop_registered (newEntities : String → Option Factory) (et : world.EntityType)
    (f : Factory) (hf : newEntities et.EncodeEntity = some f) (blockPos : mgl64.Vec3)
    (n : Nat) (r : Rand) :
    (spawnLoop newEntities et blockPos n r).2.2 = false ∧
      (created (spawnLoop newEntities et blockPos n r).1).length = n ∧
      written (spawnLoop newEntities et blockPos n r).1 = [] := by
  induction n generalizing r with
  | zero => exact ⟨rfl, rfl, rfl⟩
  | succ n ih =>
      have ih1 := fun r => (ih r).1
      have ih2 := fun r => (ih r).2.1
      have ih3 := fun r => (ih r).2.2
      simp only [spawnLoop, hf, created, written, List.length_cons, ih1, ih2, ih3, and_self]

theorem storedAfter_of_written_nil (xs : List Call) (b : Spawner) (pos : cube.Pos)
    (h : written xs = []) : storedAfter pos b xs = b := by
  induction xs generalizing b with
  | nil => rfl
  | cons c cs ih =>
      cases c with
      | EntitiesWithin box => exact ih b h
      | SetBlock p b2 => simp only [written, reduceCtorEq] at h
      | AddEntity e => exact ih b h

theorem storedAfter_append (pos : cube.Pos) (b : Spawner) (xs ys : List Call) :
    storedAfter pos b (xs ++ ys) = storedAfter pos (storedAfter pos b xs) ys := by
  induction xs generalizing b with
  | nil => rfl
  | cons c cs ih => cases c <;> simp [storedAfter, ih]

/-- A bound block due for evaluation, observer present, count at the cap: `Tick`
makes its two queries and returns. -/
theorem Tick_too_many (newEntities : String → Option Factory) (s : Spawner)
    (pos : cube.Pos) (tx : world.Tx) (r : Rand) (et : world.EntityType)
    (h : s.EntityType = some et) (hd : goInt (s.Delay - 1) ≤ 0)
    (hobs : ObserverIn tx (s.region pos))
    (hcap : tooMany et s.MaxNearbyEntities (tx.EntitiesWithin (s.region pos)) 0 = true) :
    s.Tick newEntities pos tx r =
      ⟨[Call.EntitiesWithin (s.region pos), Call.EntitiesWithin (s.region pos)], false, r⟩ := by
  have hp := playerNearby_eq_true tx (s.region pos) hobs
  have hb : ∀ d, Spawner.box { s with EntityType := some et, pos := pos, Delay := d } =
      s.region pos := fun _ => rfl
  simp only [Spawner.Tick, h, gt_iff_lt, not_lt.mpr hd, if_false, hb, hp, Bool.not_true,
    Bool.false_eq_true, hcap, if_true]

/-- A bound block due for evaluation, observer present, count below the cap, factory
registered, both draws legal: `Tick` adds the batch and writes the block with the
fresh countdown. -/
theorem Tick_spawns (newEntities : String → Option Factory) (s : Spawner)
    (pos : cube.Pos) (tx : world.Tx) (r : Rand) (et : world.EntityType) (f : Factory)
    (h : s.EntityType = some et) (hd : goInt (s.Delay - 1) ≤ 0)
    (hobs : ObserverIn tx (s.region pos))
    (hcap : tooMany et s.MaxNearbyEntities (tx.EntitiesWithin (s.region pos)) 0 = false)
    (hf : newEntities et.EncodeEntity = some f) (hcount : 0 < s.SpawnCount)
    (hdelays : 0 < goInt (s.MaxSpawnDelay - s.MinSpawnDelay)) :
    ∃ (added : List Call) (n d : Nat) (r2 : Rand),
      s.Tick newEntities pos tx r =
        ⟨[Call.EntitiesWithin (s.region pos), Call.EntitiesWithin (s.region pos)] ++ added ++
          [Call.SetBlock pos { s with pos := pos, Delay := goInt ((d : Int) + s.MinSpawnDelay) }],
          false, r2⟩ ∧
      written added = [] ∧ (created added).length = n ∧ (n : Int) < s.SpawnCount ∧
      (d : Int) < goInt (s.MaxSpawnDelay - s.MinSpawnDelay) := by
  have hp := playerNearby_eq_true tx (s.region pos) hobs
  have hb : ∀ d, Spawner.box { s with EntityType := some et, pos := pos, Delay := d } =
      s.region pos := fun _ => rfl
  have hl := fun n r => spawnLoop_registered newEntities et f hf pos.Vec3 n r
  refine ⟨(spawnLoop newEntities et pos.Vec3 (r.headD 0 % s.SpawnCount.toNat) r.tail).1,
    r.headD 0 % s.SpawnCount.toNat,
    (spawnLoop newEntities et pos.Vec3 (r.headD 0 % s.SpawnCount.toNat) r.tail).2.1.headD 0 %
      (goInt (s.MaxSpawnDelay - s.MinSpawnDelay)).toNat,
    (spawnLoop newEntities et pos.Vec3 (r.headD 0 % s.SpawnCount.toNat) r.tail).2.1.tail,
    ?_, (hl _ _).2.2, (hl _ _).2.1, ?_, ?_⟩
  · simp only [Spawner.Tick, h, gt_iff_lt, not_lt.mpr hd, if_false, hb, hp, Bool.not_true,
      Bool.false_eq_true, hcap, rand.Intn, not_le.mpr hcount, not_le.mpr hdelays,
      Int.toNat_ofNat, (hl _ _).1]
  · have := Nat.mod_lt (r.headD 0) (show 0 < s.SpawnCount.toNat by omega)
    omega
  · have := Nat.mod_lt
      ((spawnLoop newEntities et pos.Vec3 (r.headD 0 % s.SpawnCount.toNat) r.tail).2.1.headD 0)
      (show 0 < (goInt (s.MaxSpawnDelay - s.MinSpawnDelay)).toNat by omega)
    omega

theorem quiet_no_observer (box : cube.BBox) : ¬ ObserverIn quiet.tx box := by
  rintro ⟨e, he, _⟩
  simp [quiet] at he

/-- C5: the claim fails on the code. The record `MinSpawnDelay = 500`,
`MaxSpawnDelay = 100` of a registered type decodes to a bound configuration with both
delays 500; its `Tick`, with a player in the region and the batch draw 0, reaches
`rand.Intn(0)` for the reschedule and panics. -/
theorem C5_clamped_delays_panic :
    (Spawner.DecodeNBT zombieOnly Spawner.zero clampedRecord).EntityType = some zombie ∧
      (Spawner.DecodeNBT zombieOnly Spawner.zero clampedRecord).MaxSpawnDelay = 500 ∧
      (Spawner.DecodeNBT zombieOnly Spawner.zero clampedRecord).MinSpawnDelay = 500 ∧
      ((Spawner.DecodeNBT zombieOnly Spawner.zero clampedRecord).Tick zombieFactory
        ⟨0, 64, 0⟩ playerOnly []).panicked = true := by
  decide

/-- C6, as stated, fails: a bound block with stored `Delay = 1`, ticked twice in an
empty world, still has stored `Delay = 1`, not `1 - 2`. -/
theorem C6_countdown_stalls :
    (counting 1).EntityType = some zombie ∧
      (runTicks zombieFactory ⟨0, 64, 0⟩ [quiet, quiet] (counting 1)).1.Delay = 1 ∧
      (runTicks zombieFactory ⟨0, 64, 0⟩ [quiet, quiet] (counting 1)).1.Delay ≠
        (counting 1).Delay - 2 := by
  decide

/-- C6, amended: with no observer in the region at any tick, for every bound block
whose stored `Delay` `d` is a 64-bit `int` above the minimum and every run of `n`
consecutive ticks, the stored `Delay` after the run is `d - n` as long as that is at
least 1 and otherwise the smaller of `d` and 1 (it goes down to 1 and stays, and a
stored value of 1 or less never changes); no entity is created and no tick panics.
Players outside the region do not matter. -/
theorem C6_countdown_without_observer (newEntities : String → Option Factory)
    (pos : cube.Pos) (et : world.EntityType) (envs : List Env) (s : Spawner)
    (hbound : s.EntityType = some et) (hd : minInt < s.Delay ∧ s.Delay ≤ maxInt)
    (hno : ∀ env ∈ envs, ¬ ObserverIn env.tx (s.region pos)) :
    (runTicks newEntities pos envs s).1.Delay = max (s.Delay - envs.length) (min s.Delay 1) ∧
      created (runTicks newEntities pos envs s).2.1 = [] ∧
      (runTicks newEntities pos envs s).2.2 = false :=
  ⟨(runTicks_no_observer newEntities pos et envs s hbound hd hno).1,
    (runTicks_no_observer newEntities pos et envs s hbound hd hno).2.2.1,
    (runTicks_no_observer newEntities pos et envs s hbound hd hno).2.2.2⟩

/-- C6, amended, at the block with `Delay = -1` ticked three times in a world whose
only player is a thousand blocks away, outside the region. -/
theorem C6_countdown_without_observer_witness :
    waiting.EntityType = some zombie ∧ (minInt < waiting.Delay ∧ waiting.Delay ≤ maxInt) ∧
      (∀ env ∈ List.replicate 3 farPlayer,
        ¬ ObserverIn env.tx (waiting.region ⟨0, 64, 0⟩)) ∧
      (runTicks zombieFactory ⟨0, 64, 0⟩ (List.replicate 3 farPlayer) waiting).1.Delay =
        max (waiting.Delay - (List.replicate 3 farPlayer).length) (min waiting.Delay 1) :=
  ⟨rfl, by decide, fun env he => by
      rw [List.eq_of_mem_replicate he]
      decide!,
    (C6_countdown_without_observer zombieFactory ⟨0, 64, 0⟩ zombie (List.replicate 3 farPlayer)
      waiting rfl (by decide) (fun env he => by
        rw [List.eq_of_mem_replicate he]
        decide!)).1⟩

/-- C7, as stated, fails: a bound block with stored `Delay = 5`, ticked five times in
an empty world, has stored `Delay = 1`, not 0. -/
theorem C7_five_ticks_leave_one :
    (counting 5).EntityType = some zombie ∧ (counting 5).Delay = 5 ∧
      (runTicks zombieFactory ⟨0, 64, 0⟩ [quiet, quiet, quiet, quiet, quiet]
        (counting 5)).1.Delay = 1 := by
  decide

/-- C7, amended: for every bound block whose stored `Delay` is 5 and every run of `n`
consecutive ticks with no observer in the region at any of them, the stored `Delay`
after the run is `5 - n` for `n ≤ 4` and 1 for every `n ≥ 4`; it is never 0. -/
theorem C7_delay_five_counts_down_to_one (newEntities : String → Option Factory)
    (pos : cube.Pos) (et : world.EntityType) (envs : List Env) (s : Spawner)
    (hbound : s.EntityType = some et) (hfive : s.Delay = 5)
    (hno : ∀ env ∈ envs, ¬ ObserverIn env.tx (s.region pos)) :
    (runTicks newEntities pos envs s).1.Delay = max (5 - (envs.length : Int)) 1 ∧
      (runTicks newEntities pos envs s).1.Delay ≠ 0 := by
  have h := (runTicks_no_observer newEntities pos et envs s hbound
    (by rw [hfive]; decide) hno).1
  rw [hfive] at h
  constructor
  · rw [h]
    omega
  · rw [h]
    omega

/-- C7, amended, at the block with `Delay = 5` ticked five times in a world whose
only player is a thousand blocks away, outside the region. -/
theorem C7_delay_five_counts_down_to_one_witness :
    (counting 5).EntityType = some zombie ∧ (counting 5).Delay = 5 ∧
      (∀ env ∈ List.replicate 5 farPlayer,
        ¬ ObserverIn env.tx ((counting 5).region ⟨0, 64, 0⟩)) ∧
      (runTicks zombieFactory ⟨0, 64, 0⟩ (List.replicate 5 farPlayer) (counting 5)).1.Delay ≠
        0 :=
  ⟨rfl, rfl, fun env he => by
      rw [List.eq_of_mem_replicate he]
      decide!,
    (C7_delay_five_counts_down_to_one zombieFactory ⟨0, 64, 0⟩ zombie
      (List.replicate 5 farPlayer) (counting 5) rfl rfl (fun env he => by
        rw [List.eq_of_mem_replicate he]
        decide!)).2⟩

/-- C8, as stated, fails: for the bound block with `Delay = 1` and
`MaxSpawnDelay = MinSpawnDelay = 200`, with a player in the region, no entity of its
type nearby and a registered factory, `Tick` panics in the reschedule draw and writes
nothing, so the stored `Delay` stays 1, below `MinSpawnDelay`. -/
theorem C8_equal_delays_no_reschedule :
    equalDelays.EntityType = some zombie ∧ goInt (equalDelays.Delay - 1) ≤ 0 ∧
      ObserverIn playerOnly (equalDelays.region ⟨0, 64, 0⟩) ∧
      (sameKind zombie (playerOnly.EntitiesWithin (equalDelays.region ⟨0, 64, 0⟩)) : Int) <
        equalDelays.MaxNearbyEntities ∧
      (equalDelays.Tick zombieFactory ⟨0, 64, 0⟩ playerOnly []).panicked = true ∧
      written (equalDelays.Tick zombieFactory ⟨0, 64, 0⟩ playerOnly []).calls = [] ∧
      ¬ equalDelays.MinSpawnDelay ≤ (storedAfter ⟨0, 64, 0⟩ equalDelays
        (equalDelays.Tick zombieFactory ⟨0, 64, 0⟩ playerOnly []).calls).Delay := by
  decide

/-- C8, amended: for every bound block whose decremented `Delay` is `≤ 0`, with an
observer in the region, a same-kind count below `MaxNearbyEntities`, a factory
registered for the kind, `SpawnCount > 0` and `MinSpawnDelay < MaxSpawnDelay` (both
64-bit `int`s whose difference is at most the largest `int`): for every outcome of the
random draws `Tick` completes, the number `n` of entities created satisfies
`0 ≤ n < SpawnCount`, and the `Delay` stored in the world satisfies
`MinSpawnDelay ≤ Delay < MaxSpawnDelay`. -/
theorem C8_spawn_tick_bounds (newEntities : String → Option Factory) (s : Spawner)
    (pos : cube.Pos) (tx : world.Tx) (r : Rand) (et : world.EntityType) (f : Factory)
    (hbound : s.EntityType = some et) (hd : goInt (s.Delay - 1) ≤ 0)
    (hobs : ObserverIn tx (s.region pos))
    (hcap : (sameKind et (tx.EntitiesWithin (s.region pos)) : Int) < s.MaxNearbyEntities)
    (hf : newEntities et.EncodeEntity = some f) (hcount : 0 < s.SpawnCount)
    (hmin : minInt ≤ s.MinSpawnDelay) (hmax : s.MaxSpawnDelay ≤ maxInt)
    (hlt : s.MinSpawnDelay < s.MaxSpawnDelay)
    (hfit : s.MaxSpawnDelay - s.MinSpawnDelay ≤ maxInt) :
    (s.Tick newEntities pos tx r).panicked = false ∧
      ((created (s.Tick newEntities pos tx r).calls).length : Int) < s.SpawnCount ∧
      s.MinSpawnDelay ≤ (storedAfter pos s (s.Tick newEntities pos tx r).calls).Delay ∧
      (storedAfter pos s (s.Tick newEntities pos tx r).calls).Delay < s.MaxSpawnDelay := by
  have hg : goInt (s.MaxSpawnDelay - s.MinSpawnDelay) = s.MaxSpawnDelay - s.MinSpawnDelay :=
    goInt_of_fits _ (by unfold minInt maxInt at *; omega)
  obtain ⟨added, n, d, r2, hT, hw, hc, hn, hdlt⟩ :=
    Tick_spawns newEntities s pos tx r et f hbound hd hobs
      (tooMany_eq_false et _ _ 0 (by omega)) hf hcount (by rw [hg]; omega)
  rw [hg] at hdlt
  have hg2 : goInt ((d : Int) + s.MinSpawnDelay) = (d : Int) + s.MinSpawnDelay :=
    goInt_of_fits _ (by unfold minInt maxInt at *; omega)
  have hst : ∀ b2 : Spawner, storedAfter pos s
      ([Call.EntitiesWithin (s.region pos), Call.EntitiesWithin (s.region pos)] ++ added ++
        [Call.SetBlock pos b2]) = b2 := by
    intro b2
    have h1 : storedAfter pos s
        [Call.EntitiesWithin (s.region pos), Call.EntitiesWithin (s.region pos)] = s := rfl
    rw [storedAfter_append, storedAfter_append, h1, storedAfter_of_written_nil added s pos hw]
    simp [storedAfter]
  have hcr : ∀ b2 : Spawner, created
      ([Call.EntitiesWithin (s.region pos), Call.EntitiesWithin (s.region pos)] ++ added ++
        [Call.SetBlock pos b2]) = created added := by
    intro b2
    simp [created_append, created]
  rw [hT]
  simp only [hst, hcr, hc, hg2]
  exact ⟨trivial, hn, by omega, by omega⟩

/-- C8, amended, at the default block with `Delay = 1`, one player in the region and
the raw draws 3, 0, 0, 0, .. -/
theorem C8_spawn_tick_bounds_witness :
    (counting 1).EntityType = some zombie ∧ goInt ((counting 1).Delay - 1) ≤ 0 ∧
      ObserverIn playerOnly ((counting 1).region ⟨0, 64, 0⟩) ∧
      (sameKind zombie (playerOnly.EntitiesWithin ((counting 1).region ⟨0, 64, 0⟩)) : Int) <
        (counting 1).MaxNearbyEntities ∧
      0 < (counting 1).SpawnCount ∧ (counting 1).MinSpawnDelay < (counting 1).MaxSpawnDelay ∧
      ((counting 1).Tick zombieFactory ⟨0, 64, 0⟩ playerOnly [3]).panicked = false ∧
      ((created ((counting 1).Tick zombieFactory ⟨0, 64, 0⟩ playerOnly [3]).calls).length :
        Int) < (counting 1).SpawnCount :=
  ⟨rfl, by decide, by decide, by decide, by decide, by decide,
    (C8_spawn_tick_bounds zombieFactory (counting 1) ⟨0, 64, 0⟩ playerOnly [3] zombie
      (fun p => ⟨zombie, p⟩) rfl (by decide) (by decide) (by decide) rfl (by decide)
      (by decide) (by decide) (by decide) (by decide)).1,
    (C8_spawn_tick_bounds zombieFactory (counting 1) ⟨0, 64, 0⟩ playerOnly [3] zombie
      (fun p => ⟨zombie, p⟩) rfl (by decide) (by decide) (by decide) rfl (by decide)
      (by decide) (by decide) (by decide) (by decide)).2.1⟩

/-- C9, as stated, fails: for the bound block with `Delay = 1` and
`MaxNearbyEntities = 0`, with a player in the region and no entity of its type nearby
(so the count 0 reaches the cap 0), `Tick` with the raw draws 2, 0, 0, .. creates two
entities and stores a fresh `Delay` of 200. -/
theorem C9_zero_cap_spawns :
    noCap.EntityType = some zombie ∧ goInt (noCap.Delay - 1) ≤ 0 ∧
      ObserverIn playerOnly (noCap.region ⟨0, 64, 0⟩) ∧
      noCap.MaxNearbyEntities ≤
        (sameKind zombie (playerOnly.EntitiesWithin (noCap.region ⟨0, 64, 0⟩)) : Int) ∧
      (created (noCap.Tick zombieFactory ⟨0, 64, 0⟩ playerOnly [2]).calls).length = 2 ∧
      (storedAfter ⟨0, 64, 0⟩ noCap
        (noCap.Tick zombieFactory ⟨0, 64, 0⟩ playerOnly [2]).calls).Delay = 200 := by
  refine ⟨rfl, by decide, by decide, by decide, ?_, ?_⟩
  · decide!
  · decide!

/-- C9, amended: for every bound block with `MaxNearbyEntities ≥ 1` whose decremented
`Delay` is `≤ 0`, with an observer in the region and a number of same-kind entities in
the region that reaches or exceeds `MaxNearbyEntities`: `Tick` completes, creates no
entity, writes no block (the stored configuration and its `Delay` are what they
were) and takes no random draw. -/
theorem C9_cap_reached_no_spawn (newEntities : String → Option Factory) (s : Spawner)
    (pos : cube.Pos) (tx : world.Tx) (r : Rand) (et : world.EntityType)
    (hbound : s.EntityType = some et) (hd : goInt (s.Delay - 1) ≤ 0)
    (hobs : ObserverIn tx (s.region pos)) (hpos : 1 ≤ s.MaxNearbyEntities)
    (hcap : s.MaxNearbyEntities ≤ (sameKind et (tx.EntitiesWithin (s.region pos)) : Int)) :
    (s.Tick newEntities pos tx r).panicked = false ∧
      created (s.Tick newEntities pos tx r).calls = [] ∧
      written (s.Tick newEntities pos tx r).calls = [] ∧
      storedAfter pos s (s.Tick newEntities pos tx r).calls = s ∧
      (s.Tick newEntities pos tx r).rand = r := by
  rw [Tick_too_many newEntities s pos tx r et hbound hd hobs
    (tooMany_eq_true et _ _ 0 (by omega) (by omega))]
  exact ⟨rfl, rfl, rfl, rfl, rfl⟩

/-- C9, amended, at the default block with `Delay = 1`, a player and six entities of
its type in the region. -/
theorem C9_cap_reached_no_spawn_witness :
    (counting 1).EntityType = some zombie ∧ goInt ((counting 1).Delay - 1) ≤ 0 ∧
      ObserverIn crowded ((counting 1).region ⟨0, 64, 0⟩) ∧
      1 ≤ (counting 1).MaxNearbyEntities ∧
      (counting 1).MaxNearbyEntities ≤
        (sameKind zombie (crowded.EntitiesWithin ((counting 1).region ⟨0, 64, 0⟩)) : Int) ∧
      created ((counting 1).Tick zombieFactory ⟨0, 64, 0⟩ crowded [2]).calls = [] :=
  ⟨rfl, by decide, by decide, by decide, by decide,
    (C9_cap_reached_no_spawn zombieFactory (counting 1) ⟨0, 64, 0⟩ crowded [2] zombie rfl
      (by decide) (by decide) (by decide) (by decide)).2.1⟩

/-- C10: for every block with `EntityType` unset, every position, transaction and
random source, `Tick` makes no call at all on the transaction (no block written, no
entity query, no entity created), takes no random draw and does not panic; and for
every run of ticks the stored block, `Delay` included, is exactly what it was and
the run made no call. -/
theorem C10_unbound_tick_inert (newEntities : String → Option Factory) (s : Spawner)
    (pos : cube.Pos) (hunbound : s.EntityType = none) :
    (∀ (tx : world.Tx) (r : Rand), s.Tick newEntities pos tx r = ⟨[], false, r⟩) ∧
      ∀ envs : List Env, runTicks newEntities pos envs s = (s, [], false) := by
  refine ⟨fun tx r => Tick_unbound newEntities s pos tx r hunbound, ?_⟩
  intro envs
  induction envs with
  | nil => rfl
  | cons env envs ih =>
      rw [runTicks_cons_ok newEntities pos env envs s [] env.rand
        (Tick_unbound newEntities s pos env.tx env.rand hunbound)]
      have hs : storedAfter pos s [] = s := rfl
      rw [hs, ih]
      rfl

/-- C10 at the zero-valued block ticked three times with a player in the region. -/
theorem C10_unbound_tick_inert_witness :
    Spawner.zero.EntityType = none ∧
      runTicks zombieFactory ⟨0, 64, 0⟩ [⟨playerOnly, [1]⟩, ⟨playerOnly, [2]⟩, ⟨playerOnly, [3]⟩]
        Spawner.zero = (Spawner.zero, [], false) :=
  ⟨rfl, (C10_unbound_tick_inert zombieFactory Spawner.zero ⟨0, 64, 0⟩ rfl).2 _⟩

/-! ## Activation gate -/

theorem Activate_bound (s : Spawner) (pos : cube.Pos) (u : item.User)
    (h : s.EntityType ≠ none) : s.Activate pos u = ⟨false, [], []⟩ := by
  simp only [Spawner.Activate, h, ne_eq, not_false_eq_true, if_true]

theorem Activate_egg (s : Spawner) (pos : cube.Pos) (u : item.User) (egg : SpawnEgg)
    (h : s.EntityType = none) (hu : u.Holds egg) :
    s.Activate pos u =
      ⟨true, [Call.SetBlock pos { s with EntityType := egg.Kind }], [1]⟩ := by
  obtain ⟨h1, h2⟩ := hu
  simp only [Spawner.Activate, h, ne_eq, not_true_eq_false, if_false, h2, h1,
    Bool.false_eq_true, Bool.not_true, Bool.or_self]

theorem Activate_no_egg (s : Spawner) (pos : cube.Pos) (u : item.User)
    (hu : ¬ ∃ egg, u.Holds egg) : s.Activate pos u = ⟨false, [], []⟩ := by
  by_cases hb : s.EntityType ≠ none
  · exact Activate_bound s pos u hb
  · simp only [Spawner.Activate, hb, if_false]
    cases hi : u.HeldItems.1.Item with
    | none => simp
    | some it =>
        cases it with
        | other n => simp
        | SpawnEgg e =>
            have hem : u.HeldItems.1.Empty = true := by
              by_contra hne
              exact hu ⟨e, by simpa using hne, hi⟩
            simp [hem]

/-- C11: `Activate` returns true if and only if the spawner is unbound and the
holder's main hand holds a non-empty stack whose item is a `SpawnEgg`. When it returns
false it makes no call on the transaction and subtracts nothing from the held stack.
When it returns true it writes one block, at the given position, equal to the
original configuration with only `EntityType` changed to the egg's kind, and it
subtracts exactly one unit from the held stack. -/
theorem C11_activate_contract (s : Spawner) (pos : cube.Pos) (u : item.User) :
    ((s.Activate pos u).ok = true ↔ s.EntityType = none ∧ ∃ egg, u.Holds egg) ∧
      ((s.Activate pos u).ok = false →
        (s.Activate pos u).calls = [] ∧ (s.Activate pos u).subtracted = []) ∧
      ∀ egg, (s.Activate pos u).ok = true → u.Holds egg →
        (s.Activate pos u).calls = [Call.SetBlock pos { s with EntityType := egg.Kind }] ∧
          (s.Activate pos u).subtracted = [1] := by
  by_cases hb : s.EntityType = none
  · by_cases hu : ∃ egg, u.Holds egg
    · obtain ⟨egg, hegg⟩ := hu
      rw [Activate_egg s pos u egg hb hegg]
      refine ⟨⟨fun _ => ⟨hb, egg, hegg⟩, fun _ => rfl⟩, fun h => by simp at h, ?_⟩
      intro egg2 _ hegg2
      have he : egg2 = egg := by
        have h1 := hegg.2
        rw [hegg2.2] at h1
        simpa using h1
      rw [he]
      exact ⟨rfl, rfl⟩
    · rw [Activate_no_egg s pos u hu]
      refine ⟨⟨fun h => by simp at h, fun h => absurd h.2 hu⟩, fun _ => ⟨rfl, rfl⟩, ?_⟩
      intro egg h
      simp at h
  · rw [Activate_bound s pos u hb]
    refine ⟨⟨fun h => by simp at h, fun h => absurd h.1 hb⟩, fun _ => ⟨rfl, rfl⟩, ?_⟩
    intro egg h
    simp at h

/-- C11 at the zero-valued block and a holder of eggs of the example type. -/
theorem C11_activate_contract_witness :
    (Spawner.zero.Activate ⟨0, 64, 0⟩ eggHolder).ok = true ∧
      eggHolder.Holds ⟨some zombie⟩ ∧
      (Spawner.zero.Activate ⟨0, 64, 0⟩ eggHolder).calls =
        [Call.SetBlock ⟨0, 64, 0⟩ { Spawner.zero with EntityType := some zombie }] ∧
      (Spawner.zero.Activate ⟨0, 64, 0⟩ eggHolder).subtracted = [1] :=
  ⟨by decide, by decide,
    (C11_activate_contract Spawner.zero ⟨0, 64, 0⟩ eggHolder).2.2 ⟨some zombie⟩
      (by decide) (by decide)⟩

/-- C12: for every unbound spawner and every holder of a non-empty stack of a spawn
egg of kind `k`, two sequential `Activate` calls, the second on the block the first
left stored at the position and by any holder, succeed on the first call and fail
on the second; the stored block is bound to `k` after each call, and in total
exactly one unit is subtracted from the held stack. -/
theorem C12_second_activation_fails (s : Spawner) (pos : cube.Pos) (u u2 : item.User)
    (egg : SpawnEgg) (k : world.EntityType) (hunbound : s.EntityType = none)
    (hu : u.Holds egg) (hk : egg.Kind = some k) :
    (s.Activate pos u).ok = true ∧
      (storedAfter pos s (s.Activate pos u).calls).EntityType = some k ∧
      ((storedAfter pos s (s.Activate pos u).calls).Activate pos u2).ok = false ∧
      (storedAfter pos (storedAfter pos s (s.Activate pos u).calls)
        ((storedAfter pos s (s.Activate pos u).calls).Activate pos u2).calls).EntityType =
          some k ∧
      ((s.Activate pos u).subtracted ++
        ((storedAfter pos s (s.Activate pos u).calls).Activate pos u2).subtracted).sum = 1 := by
  rw [Activate_egg s pos u egg hunbound hu]
  have hs : storedAfter pos s [Call.SetBlock pos { s with EntityType := egg.Kind }] =
      { s with EntityType := egg.Kind } := by
    simp only [storedAfter, if_true]
  simp only [hs]
  rw [Activate_bound _ pos u2 (by simp only [hk, ne_eq, reduceCtorEq, not_false_eq_true])]
  simp only [storedAfter, hk]
  exact ⟨trivial, trivial, trivial, trivial, by decide⟩

/-- C12 at the zero-valued block and a holder of eggs of the example type, activating
twice. -/
theorem C12_second_activation_fails_witness :
    Spawner.zero.EntityType = none ∧ eggHolder.Holds ⟨some zombie⟩ ∧
      (Spawner.zero.Activate ⟨0, 64, 0⟩ eggHolder).ok = true ∧
      ((storedAfter ⟨0, 64, 0⟩ Spawner.zero
        (Spawner.zero.Activate ⟨0, 64, 0⟩ eggHolder).calls).Activate ⟨0, 64, 0⟩
          eggHolder).ok = false :=
  ⟨rfl, by decide,
    (C12_second_activation_fails Spawner.zero ⟨0, 64, 0⟩ eggHolder eggHolder ⟨some zombie⟩
      zombie rfl (by decide) rfl).1,
    (C12_second_activation_fails Spawner.zero ⟨0, 64, 0⟩ eggHolder eggHolder ⟨some zombie⟩
      zombie rfl (by decide) rfl).2.2.1⟩


/-! ## What a tick can write -/

theorem written_append (xs ys : List Call) : written (xs ++ ys) = written xs ++ written ys := by
  induction xs with
  | nil => rfl
  | cons c cs ih => cases c <;> simp [written, ih]

/-- The spawn loop writes no block, whatever the registry holds. -/
theorem spawnLoop_written (newEntities : String → Option Factory) (et : world.EntityType)
    (blockPos : mgl64.Vec3) (n : Nat) (r : Rand) :
    written (spawnLoop newEntities et blockPos n r).1 = [] := by
  induction n generalizing r with
  | zero => rfl
  | succ n ih =>
      cases hf : newEntities et.EncodeEntity with
      | none =>
          simp only [spawnLoop, hf]
          rfl
      | some f =>
          simp only [spawnLoop, hf, written, ih]

/-- The calls of a tick: some calls that write no block, followed by at most one
`SetBlock`, at the position ticked, of the block with only `pos` and `Delay` changed. -/
theorem Tick_calls_shape (newEntities : String → Option Factory) (s : Spawner)
    (pos : cube.Pos) (tx : world.Tx) (r : Rand) :
    ∃ pre post, (s.Tick newEntities pos tx r).calls = pre ++ post ∧ written pre = [] ∧
      (post = [] ∨ ∃ d, post = [Call.SetBlock pos { s with pos := pos, Delay := d }]) := by
  unfold Spawner.Tick
  split
  · exact ⟨[], [], rfl, rfl, Or.inl rfl⟩
  · rename_i et het
    simp only []
    split
    · exact ⟨[], _, rfl, rfl, Or.inr ⟨_, rfl⟩⟩
    · split
      · exact ⟨_, [], (List.append_nil _).symm, rfl, Or.inl rfl⟩
      · split
        · exact ⟨_, [], (List.append_nil _).symm, rfl, Or.inl rfl⟩
        · split
          · exact ⟨_, [], (List.append_nil _).symm, rfl, Or.inl rfl⟩
          · rename_i n r2 hn
            have hw := spawnLoop_written newEntities et pos.Vec3 n.toNat r2
            split
            · refine ⟨_, [], (List.append_nil _).symm, ?_, Or.inl rfl⟩
              simp [written_append, written, hw]
            · split
              · refine ⟨_, [], (List.append_nil _).symm, ?_, Or.inl rfl⟩
                simp [written_append, written, hw]
              · refine ⟨_, _, rfl, ?_, Or.inr ⟨_, rfl⟩⟩
                simp [written_append, written, hw]


/-- A tick keeps the entity type: of every block it writes and of the block stored
afterwards. -/
theorem Tick_keeps_type (newEntities : String → Option Factory) (s : Spawner)
    (pos : cube.Pos) (tx : world.Tx) (r : Rand) :
    (∀ pb ∈ written (s.Tick newEntities pos tx r).calls,
        pb.1 = pos ∧ pb.2.EntityType = s.EntityType) ∧
      (storedAfter pos s (s.Tick newEntities pos tx r).calls).EntityType = s.EntityType := by
  obtain ⟨pre, post, hc, hpre, hpost⟩ := Tick_calls_shape newEntities s pos tx r
  rw [hc, written_append, hpre, storedAfter_append, storedAfter_of_written_nil pre s pos hpre]
  rcases hpost with h | ⟨d, h⟩
  · rw [h]
    exact ⟨fun pb hpb => by simp [written] at hpb, rfl⟩
  · rw [h]
    constructor
    · intro pb hpb
      simp only [written, List.nil_append, List.mem_singleton] at hpb
      rw [hpb]
      exact ⟨rfl, rfl⟩
    · simp only [storedAfter, if_true]

/-- One step on a bound block keeps the entity type: of every block it writes and of
the block stored afterwards. -/
theorem Op_run_keeps_type (newEntities : String → Option Factory) (pos : cube.Pos)
    (s : Spawner) (et : world.EntityType) (h : s.EntityType = some et) (op : Op) :
    (∀ pb ∈ written (op.run newEntities pos s).1, pb.2.EntityType = some et) ∧
      (storedAfter pos s (op.run newEntities pos s).1).EntityType = some et := by
  cases op with
  | tick env =>
      have hk := Tick_keeps_type newEntities s pos env.tx env.rand
      rw [h] at hk
      exact ⟨fun pb hpb => (hk.1 pb hpb).2, hk.2⟩
  | activate u =>
      have ha : s.Activate pos u = ⟨false, [], []⟩ :=
        Activate_bound s pos u (by simp only [h, ne_eq, reduceCtorEq, not_false_eq_true])
      simp only [Op.run, ha]
      exact ⟨fun pb hpb => by simp [written] at hpb, h⟩

/-- A run of ticks and activation attempts on a bound block keeps the entity type. -/
theorem runOps_keeps_type (newEntities : String → Option Factory) (pos : cube.Pos)
    (et : world.EntityType) (ops : List Op) (s : Spawner) (h : s.EntityType = some et) :
    (∀ pb ∈ written (runOps newEntities pos ops s).2.1, pb.2.EntityType = some et) ∧
      (runOps newEntities pos ops s).1.EntityType = some et := by
  induction ops generalizing s with
  | nil => exact ⟨fun pb hpb => by simp [runOps, written] at hpb, h⟩
  | cons op ops ih =>
      obtain ⟨h1, h2⟩ := Op_run_keeps_type newEntities pos s et h op
      obtain ⟨h3, h4⟩ := ih (storedAfter pos s (op.run newEntities pos s).1) h2
      simp only [runOps]
      split
      · exact ⟨h1, h2⟩
      · refine ⟨?_, h4⟩
        intro pb hpb
        simp only [written_append, List.mem_append] at hpb
        rcases hpb with hpb | hpb
        · exact h1 pb hpb
        · exact h3 pb hpb

/-- C13: once bound, a spawner is never unbound or rebound. For every configuration
with `EntityType` set and every sequence of ticks and activation attempts, each run on
the block the previous step left stored, every block written to the world and the
block stored at the end have the same `EntityType`. And whatever the block, a single
step changes the stored `EntityType` only when it was unset and the step is an
`Activate` that returned true. -/
theorem C13_binding_is_permanent (newEntities : String → Option Factory) (pos : cube.Pos)
    (et : world.EntityType) (ops : List Op) (s : Spawner) (hbound : s.EntityType = some et) :
    (∀ pb ∈ written (runOps newEntities pos ops s).2.1, pb.2.EntityType = some et) ∧
      (runOps newEntities pos ops s).1.EntityType = some et ∧
      ∀ (op : Op) (b : Spawner),
        (storedAfter pos b (op.run newEntities pos b).1).EntityType ≠ b.EntityType →
          b.EntityType = none ∧ ∃ u, op = Op.activate u ∧ (b.Activate pos u).ok = true := by
  refine ⟨(runOps_keeps_type newEntities pos et ops s hbound).1,
    (runOps_keeps_type newEntities pos et ops s hbound).2, ?_⟩
  intro op b hne
  cases hb : b.EntityType with
  | some k => exact absurd ((Op_run_keeps_type newEntities pos b k hb op).2.trans hb.symm) hne
  | none =>
      refine ⟨rfl, ?_⟩
      cases op with
      | tick env =>
          exfalso
          apply hne
          simp only [Op.run, Tick_unbound newEntities b pos env.tx env.rand hb, storedAfter]
      | activate u =>
          refine ⟨u, rfl, ?_⟩
          by_cases hu : ∃ egg, u.Holds egg
          · obtain ⟨egg, hegg⟩ := hu
            rw [Activate_egg b pos u egg hb hegg]
          · exfalso
            apply hne
            simp only [Op.run, Activate_no_egg b pos u hu, storedAfter]

/-- C13 at the default bound block: a tick, an activation attempt with an egg, and a
tick that spawns. -/
theorem C13_binding_is_permanent_witness :
    (counting 2).EntityType = some zombie ∧
      (runOps zombieFactory ⟨0, 64, 0⟩ [Op.tick quiet, Op.activate eggHolder, Op.tick lively]
        (counting 2)).1.EntityType = some zombie :=
  ⟨rfl, (C13_binding_is_permanent zombieFactory ⟨0, 64, 0⟩ zombie
    [Op.tick quiet, Op.activate eggHolder, Op.tick lively] (counting 2) rfl).2.1⟩


/-! ## Decoding of the countdown, and the record written -/

/-- C14, as stated, fails at the edges of the narrowing: the negative value
`float64(-0.5)` narrows to 0, which is kept instead of the default 20; and the
non-negative value `uint64(9223372036854775808)` narrows to a negative `int`, so the
default 20 is returned instead of the narrowed value. -/
theorem C14_sign_is_tested_after_narrowing :
    nbtInt halfBelowZero "Delay" = some 0 ∧
      (Spawner.DecodeNBT zombieOnly Spawner.zero halfBelowZero).Delay = 0 ∧
      nbtInt hugeDelay "Delay" = some (-9223372036854775808) ∧
      (Spawner.DecodeNBT zombieOnly Spawner.zero hugeDelay).Delay = 20 := by
  refine ⟨?_, ?_, by decide, by decide⟩
  · decide!
  · decide!

/-- C14, amended: for every record and receiver, the `Delay` returned by `DecodeNBT`
is the record's `Delay` value narrowed to an `int` when the value is numeric and
narrows to an `int` `≥ 0` (zero included), and the default 20 when the value is
missing, non-numeric or narrows to a negative `int`. -/
theorem C14_decode_delay (entities : String → Option world.EntityType) (s : Spawner)
    (data : Record) :
    (∀ v, nbtInt data "Delay" = some v → 0 ≤ v →
        (Spawner.DecodeNBT entities s data).Delay = v) ∧
      (nbtInt data "Delay" = none → (Spawner.DecodeNBT entities s data).Delay = 20) ∧
      (∀ v, nbtInt data "Delay" = some v → v < 0 →
        (Spawner.DecodeNBT entities s data).Delay = 20) := by
  rw [DecodeNBT_eq]
  refine ⟨?_, ?_, ?_⟩
  · intro v hv h0
    show overlaidDelay data = v
    simp only [overlaidDelay, hv, ge_iff_le, h0, if_true]
  · intro hv
    show overlaidDelay data = 20
    simp only [overlaidDelay, hv]
  · intro v hv h0
    show overlaidDelay data = 20
    simp only [overlaidDelay, hv, ge_iff_le, not_le.mpr h0, if_false]

/-- C14, amended, at the record `Delay = 0`: the decoded `Delay` is 0. -/
theorem C14_decode_delay_witness :
    nbtInt zeroDelay "Delay" = some 0 ∧
      (Spawner.DecodeNBT zombieOnly Spawner.zero zeroDelay).Delay = 0 :=
  ⟨by decide, (C14_decode_delay zombieOnly Spawner.zero zeroDelay).1 0 (by decide) (by decide)⟩

/-- C15, as stated, fails: a block bound to an entity type whose identifier is the
empty string is written with an empty `EntityIdentifier`, so the identifier is not
empty only when the spawner is unbound. -/
theorem C15_empty_identifier_while_bound :
    boundNameless.EntityType ≠ none ∧
      boundNameless.EncodeNBT "EntityIdentifier" = some (Value.string "") := by
  decide

/-- C15, amended: for every configuration, `EncodeNBT` produces a record in which
`EntityIdentifier` is the bound kind's identifier string when the spawner is bound and
the empty string when it is unbound; `Delay`, `MinSpawnDelay`, `MaxSpawnDelay`,
`SpawnCount`, `SpawnRange`, `MaxNearbyEntities` and `RequiredPlayerRange` are the
16-bit signed narrowings of the fields, a narrowing being the value itself whenever
that lies in -32768..32767; `isMovable` is 1 when `Movable` is true and 0 otherwise;
`DisplayEntityHeight` and `DisplayEntityWidth` are the constant 1; and `x`, `y`,
`z` are the 32-bit signed narrowings of the position coordinates. -/
theorem C15_encode_record (c : Spawner) :
    c.EncodeNBT "EntityIdentifier" = some (Value.string
        (match c.EntityType with
          | some et => et.EncodeEntity
          | none => "")) ∧
      c.EncodeNBT "Delay" = some (Value.int16 (goInt16 c.Delay)) ∧
      c.EncodeNBT "MinSpawnDelay" = some (Value.int16 (goInt16 c.MinSpawnDelay)) ∧
      c.EncodeNBT "MaxSpawnDelay" = some (Value.int16 (goInt16 c.MaxSpawnDelay)) ∧
      c.EncodeNBT "SpawnCount" = some (Value.int16 (goInt16 c.SpawnCount)) ∧
      c.EncodeNBT "SpawnRange" = some (Value.int16 (goInt16 c.SpawnRange)) ∧
      c.EncodeNBT "MaxNearbyEntities" = some (Value.int16 (goInt16 c.MaxNearbyEntities)) ∧
      c.EncodeNBT "RequiredPlayerRange" = some (Value.int16 (goInt16 c.RequiredPlayerRange)) ∧
      (∀ x : Int, (-32768 ≤ goInt16 x ∧ goInt16 x ≤ 32767) ∧
        (-32768 ≤ x ∧ x ≤ 32767 → goInt16 x = x)) ∧
      c.EncodeNBT "isMovable" = some (Value.uint8 (if c.Movable then 1 else 0)) ∧
      c.EncodeNBT "DisplayEntityHeight" = some (Value.float32 (GoFloat.finite 1)) ∧
      c.EncodeNBT "DisplayEntityWidth" = some (Value.float32 (GoFloat.finite 1)) ∧
      c.EncodeNBT "x" = some (Value.int32 (goInt32 c.pos.X)) ∧
      c.EncodeNBT "y" = some (Value.int32 (goInt32 c.pos.Y)) ∧
      c.EncodeNBT "z" = some (Value.int32 (goInt32 c.pos.Z)) ∧
      (∀ x : Int, (-2147483648 ≤ goInt32 x ∧ goInt32 x ≤ 2147483647) ∧
        (-2147483648 ≤ x ∧ x ≤ 2147483647 → goInt32 x = x)) := by
  refine ⟨?_, rfl, rfl, rfl, rfl, rfl, rfl, rfl, ?_, ?_, rfl, rfl, rfl, rfl, rfl, ?_⟩
  · cases h : c.EntityType <;> simp only [Spawner.EncodeNBT, h] <;> rfl
  · intro x
    unfold goInt16
    omega
  · cases h : c.Movable <;> simp only [Spawner.EncodeNBT, boolToByte, h] <;> rfl
  · intro x
    unfold goInt32
    omega

/-- C15, amended, at the default bound block: a `Delay` of 20 is written as 20. -/
theorem C15_encode_record_witness :
    fresh.EncodeNBT "EntityIdentifier" = some (Value.string "minecraft:zombie") ∧
      goInt16 fresh.Delay = 20 :=
  ⟨(C15_encode_record fresh).1,
    ((C15_encode_record fresh).2.2.2.2.2.2.2.2.1 fresh.Delay).2 (by decide)⟩

/-! ## Frame of a counting tick -/

/-- C16: for every bound spawner whose `Delay` before the tick is greater than 1 (a
64-bit `int`), `Tick` makes exactly one call on the transaction, a `SetBlock` at the
given position of the same configuration with `Delay` reduced by exactly 1 (and the
position recorded), every other field unchanged; it creates no entity, does not
panic, takes no random draw, and makes the same calls whatever the transaction
reports and whatever the random source holds. -/
theorem C16_counting_tick_frame (newEntities : String → Option Factory) (s : Spawner)
    (pos : cube.Pos) (tx : world.Tx) (r : Rand) (et : world.EntityType)
    (hbound : s.EntityType = some et) (hd : 1 < s.Delay) (hfit : s.Delay ≤ maxInt) :
    (s.Tick newEntities pos tx r).calls =
        [Call.SetBlock pos { s with pos := pos, Delay := s.Delay - 1 }] ∧
      (s.Tick newEntities pos tx r).panicked = false ∧
      (s.Tick newEntities pos tx r).rand = r ∧
      created (s.Tick newEntities pos tx r).calls = [] ∧
      ∀ (tx2 : world.Tx) (r2 : Rand),
        (s.Tick newEntities pos tx2 r2).calls = (s.Tick newEntities pos tx r).calls := by
  have hg : goInt (s.Delay - 1) = s.Delay - 1 :=
    goInt_of_fits _ (by unfold minInt maxInt at *; omega)
  have hT : ∀ (tx : world.Tx) (r : Rand), s.Tick newEntities pos tx r =
      ⟨[Call.SetBlock pos { s with pos := pos, Delay := s.Delay - 1 }], false, r⟩ := by
    intro tx r
    rw [Tick_counting newEntities s pos tx r et hbound (by rw [hg]; omega), hg]
  rw [hT tx r]
  exact ⟨rfl, rfl, rfl, rfl, fun tx2 r2 => by rw [hT tx2 r2]⟩

/-- C16 at the default bound block with `Delay = 20`, in a crowded region. -/
theorem C16_counting_tick_frame_witness :
    fresh.EntityType = some zombie ∧ 1 < fresh.Delay ∧ fresh.Delay ≤ maxInt ∧
      (fresh.Tick zombieFactory ⟨0, 64, 0⟩ crowded [3]).calls =
        [Call.SetBlock ⟨0, 64, 0⟩ { fresh with pos := ⟨0, 64, 0⟩, Delay := fresh.Delay - 1 }] :=
  ⟨rfl, by decide, by decide,
    (C16_counting_tick_frame zombieFactory fresh ⟨0, 64, 0⟩ crowded [3] zombie rfl
      (by decide) (by decide)).1⟩


/-! ## Missing factory -/

/-- The spawn loop without a factory for the kind: it adds nothing, and returns from
`Tick` as soon as there is a first unit. -/
theorem spawnLoop_unregistered (newEntities : String → Option Factory)
    (et : world.EntityType) (hf : newEntities et.EncodeEntity = none) (blockPos : mgl64.Vec3)
    (n : Nat) (r : Rand) :
    (spawnLoop newEntities et blockPos n r).1 = [] ∧
      (spawnLoop newEntities et blockPos n r).2.2 = decide (0 < n) := by
  cases n with
  | zero => exact ⟨rfl, rfl⟩
  | succ n =>
      simp [spawnLoop, hf]

/-- `Tick` of a bound spawner with `SpawnCount > 0` whose decremented `Delay` is `≤ 0`,
with no factory for the bound kind, an observer in the region and the same-kind count
below the cap: it creates no entity; when the drawn batch size is at least 1 it does
not panic and writes nothing to the world, so the stored configuration, `Delay`
included, is what it was before the tick, whatever the two delays are; and when the
drawn batch size is 0 it panics exactly when `MaxSpawnDelay - MinSpawnDelay`, as an
`int`, is `≤ 0`. -/
theorem Tick_missing_factory (newEntities : String → Option Factory) (s : Spawner)
    (pos : cube.Pos) (tx : world.Tx) (r : Rand) (et : world.EntityType)
    (hbound : s.EntityType = some et) (hd : goInt (s.Delay - 1) ≤ 0)
    (hobs : ObserverIn tx (s.region pos))
    (hcap : (sameKind et (tx.EntitiesWithin (s.region pos)) : Int) < s.MaxNearbyEntities)
    (hf : newEntities et.EncodeEntity = none) (hcount : 0 < s.SpawnCount) :
    created (s.Tick newEntities pos tx r).calls = [] ∧
      (1 ≤ batchSize s r →
        (s.Tick newEntities pos tx r).panicked = false ∧
          written (s.Tick newEntities pos tx r).calls = [] ∧
          storedAfter pos s (s.Tick newEntities pos tx r).calls = s) ∧
      (batchSize s r = 0 →
        ((s.Tick newEntities pos tx r).panicked = true ↔
          goInt (s.MaxSpawnDelay - s.MinSpawnDelay) ≤ 0)) := by
  have hp := playerNearby_eq_true tx (s.region pos) hobs
  have hb : ∀ d, Spawner.box { s with EntityType := some et, pos := pos, Delay := d } =
      s.region pos := fun _ => rfl
  have hcap2 := tooMany_eq_false et s.MaxNearbyEntities (tx.EntitiesWithin (s.region pos)) 0
    (by omega)
  have hl := fun n r => spawnLoop_unregistered newEntities et hf pos.Vec3 n r
  by_cases hbatch : 0 < batchSize s r
  · have hT : s.Tick newEntities pos tx r =
        ⟨[Call.EntitiesWithin (s.region pos), Call.EntitiesWithin (s.region pos)], false,
          (spawnLoop newEntities et pos.Vec3 (batchSize s r) r.tail).2.1⟩ := by
      unfold batchSize at hbatch ⊢
      simp only [Spawner.Tick, hbound, gt_iff_lt, not_lt.mpr hd, if_false, hb, hp,
        Bool.not_true, Bool.false_eq_true, hcap2, rand.Intn, not_le.mpr hcount,
        Int.toNat_ofNat, (hl _ _).1, (hl _ _).2, hbatch, decide_True, if_true,
        List.append_nil]
    rw [hT]
    exact ⟨rfl, fun _ => ⟨rfl, rfl, rfl⟩, fun h => absurd h (by omega)⟩
  · have hz : batchSize s r = 0 := by omega
    by_cases hdl : goInt (s.MaxSpawnDelay - s.MinSpawnDelay) ≤ 0
    · have hT : s.Tick newEntities pos tx r =
          ⟨[Call.EntitiesWithin (s.region pos), Call.EntitiesWithin (s.region pos)], true,
            r.tail⟩ := by
        unfold batchSize at hz
        simp only [Spawner.Tick, hbound, gt_iff_lt, not_lt.mpr hd, if_false, hb, hp,
          Bool.not_true, Bool.false_eq_true, hcap2, rand.Intn, not_le.mpr hcount,
          Int.toNat_ofNat, hz, spawnLoop, hdl, if_true, List.append_nil, List.cons_append,
          List.nil_append]
      rw [hT]
      exact ⟨rfl, fun h => absurd h (by omega), fun _ => ⟨fun _ => hdl, fun _ => rfl⟩⟩
    · have hT : ∃ (d : Int) (r2 : Rand), s.Tick newEntities pos tx r =
          ⟨[Call.EntitiesWithin (s.region pos), Call.EntitiesWithin (s.region pos),
            Call.SetBlock pos { s with pos := pos, Delay := d }], false, r2⟩ := by
        unfold batchSize at hz
        refine ⟨goInt (((r.tail.headD 0 %
          (goInt (s.MaxSpawnDelay - s.MinSpawnDelay)).toNat : Nat) : Int) + s.MinSpawnDelay),
          r.tail.tail, ?_⟩
        simp only [Spawner.Tick, hbound, gt_iff_lt, not_lt.mpr hd, if_false, hb, hp,
          Bool.not_true, Bool.false_eq_true, hcap2, rand.Intn, not_le.mpr hcount,
          Int.toNat_ofNat, hz, spawnLoop, hdl, List.append_nil, List.cons_append,
          List.nil_append]
      obtain ⟨d, r2, hT⟩ := hT
      rw [hT]
      exact ⟨rfl, fun h => absurd h (by omega),
        fun _ => ⟨fun h => absurd h (by simp), fun h => absurd h hdl⟩⟩

/-- C17: the claim fails on the code. The record `MinSpawnDelay = 500`,
`MaxSpawnDelay = 100` of a registered type decodes to a bound configuration with both
delays 500 and `Delay = 1`. With no factory for the bound kind in the registry, a
player in the region and no entity of the kind nearby, its `Tick` with the batch
draw 0 never consults the registry, reaches `rand.Intn(0)` for the reschedule and
panics, where the claim says it raises no error. With the batch draw 2 the same `Tick`
does stop at the first unit: no panic, no entity, nothing written. -/
theorem C17_no_factory_tick_panics :
    (Spawner.DecodeNBT zombieOnly Spawner.zero clampedRecord).EntityType = some zombie ∧
      noFactory zombie.EncodeEntity = none ∧
      ObserverIn playerOnly
        ((Spawner.DecodeNBT zombieOnly Spawner.zero clampedRecord).region ⟨0, 64, 0⟩) ∧
      (sameKind zombie (playerOnly.EntitiesWithin
          ((Spawner.DecodeNBT zombieOnly Spawner.zero clampedRecord).region ⟨0, 64, 0⟩)) :
        Int) < (Spawner.DecodeNBT zombieOnly Spawner.zero clampedRecord).MaxNearbyEntities ∧
      batchSize (Spawner.DecodeNBT zombieOnly Spawner.zero clampedRecord) [] = 0 ∧
      ((Spawner.DecodeNBT zombieOnly Spawner.zero clampedRecord).Tick noFactory
        ⟨0, 64, 0⟩ playerOnly []).panicked = true ∧
      created ((Spawner.DecodeNBT zombieOnly Spawner.zero clampedRecord).Tick noFactory
        ⟨0, 64, 0⟩ playerOnly []).calls = [] ∧
      batchSize (Spawner.DecodeNBT zombieOnly Spawner.zero clampedRecord) [2] = 2 ∧
      ((Spawner.DecodeNBT zombieOnly Spawner.zero clampedRecord).Tick noFactory
        ⟨0, 64, 0⟩ playerOnly [2]).panicked = false ∧
      created ((Spawner.DecodeNBT zombieOnly Spawner.zero clampedRecord).Tick noFactory
        ⟨0, 64, 0⟩ playerOnly [2]).calls = [] ∧
      written ((Spawner.DecodeNBT zombieOnly Spawner.zero clampedRecord).Tick noFactory
        ⟨0, 64, 0⟩ playerOnly [2]).calls = [] :=
  ⟨by decide, rfl, by decide!, by decide!, by decide, by decide!, by decide!, by decide,
    by decide!, by decide!, by decide!⟩


/-! ## Resolution of the entity type -/

/-- C19, as stated, fails: `DecodeNBT` called on a bound receiver with a record that
has no `EntityIdentifier` returns a configuration bound to the receiver's type. -/
theorem C19_bound_receiver_stays_bound :
    Unresolved zombieOnly minOnly ∧ fresh.EntityType = some zombie ∧
      (Spawner.DecodeNBT zombieOnly fresh minOnly).EntityType = some zombie ∧
      (Spawner.DecodeNBT zombieOnly fresh minOnly).EntityType ≠ none := by
  decide

/-- C19, amended: for every record whose `EntityIdentifier` is missing, not a string,
empty, or not a key of the registry, and for every receiver, the configuration
returned by `DecodeNBT` has the receiver's `EntityType`, so it is unbound whenever the
receiver is unbound; when the identifier is a non-empty registered key, the returned
`EntityType` is the registered type for that key. -/
theorem C19_entity_type_resolution (entities : String → Option world.EntityType)
    (s : Spawner) (data : Record) :
    (Unresolved entities data →
        (Spawner.DecodeNBT entities s data).EntityType = s.EntityType) ∧
      (Unresolved entities data → s.EntityType = none →
        (Spawner.DecodeNBT entities s data).EntityType = none) ∧
      ∀ (id : String) (et : world.EntityType),
        data "EntityIdentifier" = some (Value.string id) → id ≠ "" → entities id = some et →
          (Spawner.DecodeNBT entities s data).EntityType = some et := by
  rw [DecodeNBT_eq]
  have h1 : Unresolved entities data → resolvedType entities s data = s.EntityType := by
    intro h
    unfold Unresolved at h
    unfold resolvedType
    split
    · rename_i id hid
      rw [hid] at h
      simp only [] at h
      rcases h with h | h
      · simp only [h, ne_eq, not_true_eq_false, if_false]
      · simp only [h, ite_self]
    · rfl
  refine ⟨h1, fun h hs => (h1 h).trans hs, ?_⟩
  intro id et hid hne he
  show resolvedType entities s data = some et
  simp only [resolvedType, hid, ne_eq, hne, not_false_eq_true, if_true, he]

/-- C19, amended, at the zero-valued receiver: a record without identifier gives an
unbound configuration, a record with a registered identifier the registered type. -/
theorem C19_entity_type_resolution_witness :
    Unresolved zombieOnly minOnly ∧
      (Spawner.DecodeNBT zombieOnly Spawner.zero minOnly).EntityType = none ∧
      (Spawner.DecodeNBT zombieOnly Spawner.zero clampedRecord).EntityType = some zombie :=
  ⟨by decide,
    (C19_entity_type_resolution zombieOnly Spawner.zero minOnly).2.1 (by decide) rfl,
    (C19_entity_type_resolution zombieOnly Spawner.zero clampedRecord).2.2
      "minecraft:zombie" zombie rfl (by decide) rfl⟩

/-! ## The counting loop against a plain count -/

/-- The counting loop never stops on a sequence with no entity of the kind. -/
theorem tooMany_of_none (et : world.EntityType) (maxNearby : Int) (es : List world.Entity)
    (k : Int) (h : sameKind et es = 0) : tooMany et maxNearby es k = false := by
  induction es with
  | nil => rfl
  | cons e es ih =>
      rw [sameKind_cons] at h
      unfold tooMany
      by_cases he : e.type = et
      · simp only [he, if_true] at h
        omega
      · simp only [he, if_false, Nat.add_zero] at h ⊢
        exact ih h

/-- C20: the early-exit counting loop of `Tick` agrees with the plain count
comparison for every sequence of nearby entities and every `MaxNearbyEntities ≥ 1`:
it stops the tick if and only if the number of entities of the bound kind is
`≥ MaxNearbyEntities`. For `MaxNearbyEntities ≤ 0` and a sequence with no entity of
the bound kind, the loop does not stop the tick although the count 0 reaches the
cap. -/
theorem C20_counting_loop (et : world.EntityType) (maxNearby : Int)
    (es : List world.Entity) :
    (1 ≤ maxNearby →
        (tooMany et maxNearby es 0 = true ↔ maxNearby ≤ (sameKind et es : Int)) ∧
          tooMany et maxNearby es 0 = countReachesCap et maxNearby es) ∧
      (maxNearby ≤ 0 → sameKind et es = 0 →
        tooMany et maxNearby es 0 = false ∧ countReachesCap et maxNearby es = true) := by
  constructor
  · intro hpos
    by_cases hc : maxNearby ≤ (sameKind et es : Int)
    · have ht := tooMany_eq_true et maxNearby es 0 (by omega) (by omega)
      refine ⟨⟨fun _ => hc, fun _ => ht⟩, ?_⟩
      rw [ht]
      simp only [countReachesCap, hc, decide_True]
    · have ht := tooMany_eq_false et maxNearby es 0 (by omega)
      refine ⟨⟨fun h => by rw [ht] at h; simp at h, fun h => absurd h hc⟩, ?_⟩
      rw [ht]
      simp only [countReachesCap, hc, decide_False]
  · intro hcap hnone
    refine ⟨tooMany_of_none et maxNearby es 0 hnone, ?_⟩
    simp only [countReachesCap, hnone, Nat.cast_zero, hcap, decide_True]

/-- C20 at a player and six entities of the example type under the cap 6, and at a
lone player under the cap 0. -/
theorem C20_counting_loop_witness :
    tooMany zombie 6 (crowded.EntitiesWithin (fresh.region ⟨0, 64, 0⟩)) 0 = true ∧
      tooMany zombie 0 (playerOnly.EntitiesWithin (fresh.region ⟨0, 64, 0⟩)) 0 = false ∧
      countReachesCap zombie 0 (playerOnly.EntitiesWithin (fresh.region ⟨0, 64, 0⟩)) = true :=
  ⟨((C20_counting_loop zombie 6 (crowded.EntitiesWithin (fresh.region ⟨0, 64, 0⟩))).1
      (by decide)).1.2 (by decide),
    ((C20_counting_loop zombie 0 (playerOnly.EntitiesWithin (fresh.region ⟨0, 64, 0⟩))).2
      (by decide) (by decide)).1,
    ((C20_counting_loop zombie 0 (playerOnly.EntitiesWithin (fresh.region ⟨0, 64, 0⟩))).2
      (by decide) (by decide)).2⟩


/-! ## `float64` rounding -/

end spawner
